import Mathlib

/-!
Verification of the data-synchronization and consistency core of the
Question-Reservation app (src/app.js), as a shallow embedding in Lean.

Modelling conventions:
* JS objects of the two record schemas are Lean structures.  A key that may be
  absent (`undefined`) is an `Option` field with `none` for "absent".
* A partial object passed to an upsert (`{ ...fields }`) is a "patch"
  structure whose fields are `Option`-wrapped: `none` means the key is absent,
  so the JS spread `{ ...old, ...patch }` keeps the old value.  This models
  shallow merge for the fixed schemas the program actually uses.
* Machine time `Date.now()` is an explicit `now : Nat` parameter.
* `localStorage` values are modelled at the JSON-value level (`Jval`), with a
  `garbage` blob standing for a string `JSON.parse` throws on.
* All functions are total and executable; fallibility is `Option`/`Except`.
-/

namespace QApp

/-- MAX_TICKETS_PER_STUDENT (src/app.js line 23). -/
def MAX_TICKETS_PER_STUDENT : Nat := 3

/-- JS `String.prototype.toUpperCase()` on the ASCII initials this app uses:
uppercase each character. -/
def toUpperCase (s : String) : String := ⟨s.data.map Char.toUpper⟩

/-- JS `String.prototype.trim()`: strip leading and trailing whitespace. -/
def jsTrim (s : String) : String :=
  ⟨((s.data.dropWhile Char.isWhitespace).reverse.dropWhile Char.isWhitespace).reverse⟩

/-! ## Data model -/

/-- A ticket record (spec section 3; shape produced by `collectFormData`,
`submitTicket`, `completeTicket`, `completeStudentTicket`, `saveTeacherMemo`
in src/app.js).  `createdAt`/`updatedAt`/`doneAt` are `none` when the key is
absent or `null`; `completedByStudent` is `none` when the key is absent. -/
structure Ticket where
  id : String
  studentId : String
  className : String
  initials : String
  subject : String
  purpose : String
  checkedMaterials : List String
  questionReason : String
  questionImages : List String
  answerImages : List String
  myAnswerImages : List String
  teacherMemo : String
  status : String
  createdAt : Option Nat
  updatedAt : Option Nat
  doneAt : Option Nat
  completedByStudent : Option Bool
deriving Repr, DecidableEq

/-- A partial ticket object passed to `upsertTicket` (src/app.js line 169).
Every caller passes an `id`; any other key may be absent (`none`).  For the
timestamp keys, `some none` is a present key holding `null` (as in
`collectFormData`'s `doneAt: null`). -/
structure TicketPatch where
  id : String
  studentId : Option String := none
  className : Option String := none
  initials : Option String := none
  subject : Option String := none
  purpose : Option String := none
  checkedMaterials : Option (List String) := none
  questionReason : Option String := none
  questionImages : Option (List String) := none
  answerImages : Option (List String) := none
  myAnswerImages : Option (List String) := none
  teacherMemo : Option String := none
  status : Option String := none
  createdAt : Option (Option Nat) := none
  updatedAt : Option (Option Nat) := none
  doneAt : Option (Option Nat) := none
  completedByStudent : Option (Option Bool) := none
deriving Repr, DecidableEq

/-- A student record (spec section 3).  The code never writes timestamps on
students; the two `Option Nat` fields exist so the upsert contract about
stamping `createdAt`/`updatedAt` can be stated (they stay `none`). -/
structure Student where
  id : String
  className : String
  initials : String
  birthday : String
  createdAt : Option Nat
  updatedAt : Option Nat
deriving Repr, DecidableEq

/-- A partial student object passed to `upsertStudent` (src/app.js line 255).
`saveStudent` always passes `id`, `className`, `initials`, `birthday` and no
timestamps; `id` may be the empty string (falsy), in which case
`upsertStudent` generates one. -/
structure StudentPatch where
  id : String
  className : Option String := none
  initials : Option String := none
  birthday : Option String := none
  createdAt : Option (Option Nat) := none
  updatedAt : Option (Option Nat) := none
deriving Repr, DecidableEq

/-! ## Lookup and counting (src/app.js lines 202-226, 303-316) -/

/-- The `getTicketById` (src/app.js line 202): `ticketsCache.find(t => t.id === id) || null`. -/
def getTicketById (cache : List Ticket) (id : String) : Option Ticket :=
  cache.find? (fun t => t.id == id)

/-- The `getStudentById` (src/app.js line 303): `studentsCache.find(s => s.id === id) || null`. -/
def getStudentById (cache : List Student) (id : String) : Option Student :=
  cache.find? (fun s => s.id == id)

/-- The `findStudent` (src/app.js line 310): exact match on `className` and
`birthday`, case-insensitive match on `initials`, first match or null. -/
def findStudent (cache : List Student) (className initials birthday : String) : Option Student :=
  cache.find? (fun s =>
    s.className == className &&
    toUpperCase s.initials == toUpperCase initials &&
    s.birthday == birthday)

/-- The `getActiveTicketCount` (src/app.js line 220): tickets of the student in
status `submitted`, excluding `excludeId` (`none` models the `null` default,
which excludes nothing since ids are strings). -/
def getActiveTicketCount (cache : List Ticket) (studentId : String)
    (excludeId : Option String) : Nat :=
  (cache.filter (fun t =>
    t.studentId == studentId &&
    t.status == "submitted" &&
    some t.id != excludeId)).length

/-- The `checkTicketLimit` (src/app.js line 1322): passes iff the count, excluding
the ticket currently being edited, is below the limit. -/
def checkTicketLimit (cache : List Ticket) (studentId : String)
    (currentEditingTicketId : Option String) : Bool :=
  getActiveTicketCount cache studentId currentEditingTicketId < MAX_TICKETS_PER_STUDENT

/-! ## Ticket upsert (src/app.js lines 169-197, localStorage branch)

`upsertTicket` finds the first cache entry with the patch's id
(`findIndex`); if found it stores `{ ...existing, ...ticket, updatedAt: now }`
at that index, otherwise it appends `{ ...ticket, createdAt: now,
updatedAt: now }`.  `upsertTicketLocalList` expresses exactly this
replace-first-or-append recursively; `upsertTicketApplied` is the merged
record the function returns. -/

/-- The `{ ...old, ...p, updatedAt: now }`: patch keys win where present,
`updatedAt` is stamped last. -/
def mergedTicket (old : Ticket) (p : TicketPatch) (now : Nat) : Ticket where
  id := p.id
  studentId := p.studentId.getD old.studentId
  className := p.className.getD old.className
  initials := p.initials.getD old.initials
  subject := p.subject.getD old.subject
  purpose := p.purpose.getD old.purpose
  checkedMaterials := p.checkedMaterials.getD old.checkedMaterials
  questionReason := p.questionReason.getD old.questionReason
  questionImages := p.questionImages.getD old.questionImages
  answerImages := p.answerImages.getD old.answerImages
  myAnswerImages := p.myAnswerImages.getD old.myAnswerImages
  teacherMemo := p.teacherMemo.getD old.teacherMemo
  status := p.status.getD old.status
  createdAt := p.createdAt.getD old.createdAt
  updatedAt := some now
  doneAt := p.doneAt.getD old.doneAt
  completedByStudent := p.completedByStudent.getD old.completedByStudent

/-- The `{ ...p, createdAt: now, updatedAt: now }` for a patch with no existing
record; absent keys default to the empty value of their type. -/
def freshTicket (p : TicketPatch) (now : Nat) : Ticket where
  id := p.id
  studentId := p.studentId.getD ""
  className := p.className.getD ""
  initials := p.initials.getD ""
  subject := p.subject.getD ""
  purpose := p.purpose.getD ""
  checkedMaterials := p.checkedMaterials.getD []
  questionReason := p.questionReason.getD ""
  questionImages := p.questionImages.getD []
  answerImages := p.answerImages.getD []
  myAnswerImages := p.myAnswerImages.getD []
  teacherMemo := p.teacherMemo.getD ""
  status := p.status.getD ""
  createdAt := some now
  updatedAt := some now
  doneAt := p.doneAt.getD none
  completedByStudent := p.completedByStudent.getD none

/-- The merged entity `upsertTicket` returns. -/
def upsertTicketApplied (cache : List Ticket) (p : TicketPatch) (now : Nat) : Ticket :=
  match cache.find? (fun t => t.id == p.id) with
  | some t => mergedTicket t p now
  | none => freshTicket p now

/-- The cache after the localStorage branch of `upsertTicket`: replace the
first entry whose id matches (`findIndex` + assignment), else push. -/
def upsertTicketLocalList (cache : List Ticket) (p : TicketPatch) (now : Nat) : List Ticket :=
  match cache with
  | [] => [freshTicket p now]
  | t :: rest =>
    if t.id == p.id then mergedTicket t p now :: rest
    else t :: upsertTicketLocalList rest p now

/-- The full ticket object a caller holds after reading a record from the
cache and mutating some fields: every key of the record is present. -/
def fullPatch (t : Ticket) : TicketPatch where
  id := t.id
  studentId := some t.studentId
  className := some t.className
  initials := some t.initials
  subject := some t.subject
  purpose := some t.purpose
  checkedMaterials := some t.checkedMaterials
  questionReason := some t.questionReason
  questionImages := some t.questionImages
  answerImages := some t.answerImages
  myAnswerImages := some t.myAnswerImages
  teacherMemo := some t.teacherMemo
  status := some t.status
  createdAt := some t.createdAt
  updatedAt := some t.updatedAt
  doneAt := some t.doneAt
  completedByStudent := t.completedByStudent.map some

/-! ## Student upsert (src/app.js lines 255-280, localStorage branch) -/

/-- The `{ ...existing, ...student }` for the shapes `upsertStudent` receives. -/
def mergedStudent (old : Student) (p : StudentPatch) : Student where
  id := p.id
  className := p.className.getD old.className
  initials := p.initials.getD old.initials
  birthday := p.birthday.getD old.birthday
  createdAt := p.createdAt.getD old.createdAt
  updatedAt := p.updatedAt.getD old.updatedAt

/-- A patch appended as a new record: absent keys default. -/
def freshStudent (p : StudentPatch) : Student where
  id := p.id
  className := p.className.getD ""
  initials := p.initials.getD ""
  birthday := p.birthday.getD ""
  createdAt := p.createdAt.getD none
  updatedAt := p.updatedAt.getD none

/-- The `if (existingIndex < 0 && !student.id) student.id = generateUUID()`
(src/app.js line 258); the empty string is the falsy id `saveStudent` passes
when adding. -/
def ensureStudentId (cache : List Student) (p : StudentPatch) (freshId : String) : StudentPatch :=
  if (cache.find? (fun s => s.id == p.id)).isNone && p.id == "" then
    { p with id := freshId }
  else p

/-- The cache after the localStorage branch of `upsertStudent`:
replace-first-by-id with the shallow merge, else push the patch itself.
Note: no timestamp is stamped anywhere in `upsertStudent`. -/
def upsertStudentLocalList (cache : List Student) (p : StudentPatch) : List Student :=
  match cache with
  | [] => [freshStudent p]
  | s :: rest =>
    if s.id == p.id then mergedStudent s p :: rest
    else s :: upsertStudentLocalList rest p

/-! ## JSON values and local persistence (src/app.js lines 149-157, 193, 235-243, 276)

`localStorage` round-trips through `JSON.stringify`/`JSON.parse`; we model the
stored value at the JSON-value level.  A `Blob.garbage` is a stored string
`JSON.parse` throws on.  The encoders below emit an explicit `null` for an
absent optional key (`JSON.stringify` omits the key instead); the value-level
content is the same and the decoders accept exactly the encoders' output. -/

/-- A JSON value. -/
inductive Jval where
  | null : Jval
  | bool (b : Bool) : Jval
  | num (n : Nat) : Jval
  | str (s : String) : Jval
  | arr (xs : List Jval) : Jval
  | obj (fields : List (String × Jval)) : Jval
deriving Repr

/-- A value stored under a `localStorage` key: either a serialized JSON value
or an unparseable string. -/
inductive Blob where
  | jv (v : Jval) : Blob
  | garbage : Blob
deriving Repr

def encodeOptNat : Option Nat → Jval
  | none => .null
  | some n => .num n

def decodeOptNat : Jval → Option (Option Nat)
  | .null => some none
  | .num n => some (some n)
  | _ => none

def encodeOptBool : Option Bool → Jval
  | none => .null
  | some b => .bool b

def decodeOptBool : Jval → Option (Option Bool)
  | .null => some none
  | .bool b => some (some b)
  | _ => none

def encodeStrList (l : List String) : Jval :=
  .arr (l.map .str)

def decodeStrs : List Jval → Option (List String)
  | [] => some []
  | .str s :: rest => (decodeStrs rest).map (s :: ·)
  | _ => none

def decodeStrList : Jval → Option (List String)
  | .arr xs => decodeStrs xs
  | _ => none

/-- Serialize one ticket record. -/
def encodeTicket (t : Ticket) : Jval :=
  .obj [("id", .str t.id), ("studentId", .str t.studentId),
        ("className", .str t.className), ("initials", .str t.initials),
        ("subject", .str t.subject), ("purpose", .str t.purpose),
        ("checkedMaterials", encodeStrList t.checkedMaterials),
        ("questionReason", .str t.questionReason),
        ("questionImages", encodeStrList t.questionImages),
        ("answerImages", encodeStrList t.answerImages),
        ("myAnswerImages", encodeStrList t.myAnswerImages),
        ("teacherMemo", .str t.teacherMemo), ("status", .str t.status),
        ("createdAt", encodeOptNat t.createdAt),
        ("updatedAt", encodeOptNat t.updatedAt),
        ("doneAt", encodeOptNat t.doneAt),
        ("completedByStudent", encodeOptBool t.completedByStudent)]

/-- Read one expected object entry holding a string. -/
def fieldStr (name : String) : List (String × Jval) → Option (String × List (String × Jval))
  | (k, .str s) :: rest => if k == name then some (s, rest) else none
  | _ => none

/-- Read one expected object entry holding any value. -/
def fieldVal (name : String) : List (String × Jval) → Option (Jval × List (String × Jval))
  | (k, v) :: rest => if k == name then some (v, rest) else none
  | _ => none

/-- Decode the six identity/category string fields of a ticket object. -/
def decTickIdent (f0 : List (String × Jval)) :
    Option ((String × String × String × String × String × String) × List (String × Jval)) := do
  let (id, f1) ← fieldStr "id" f0
  let (sid, f2) ← fieldStr "studentId" f1
  let (cn, f3) ← fieldStr "className" f2
  let (ini, f4) ← fieldStr "initials" f3
  let (sub, f5) ← fieldStr "subject" f4
  let (pur, f6) ← fieldStr "purpose" f5
  some ((id, sid, cn, ini, sub, pur), f6)

/-- Decode the question-content fields of a ticket object. -/
def decTickContent (f0 : List (String × Jval)) :
    Option ((List String × String × List String) × List (String × Jval)) := do
  let (vcm, f1) ← fieldVal "checkedMaterials" f0
  let cm ← decodeStrList vcm
  let (qr, f2) ← fieldStr "questionReason" f1
  let (vqi, f3) ← fieldVal "questionImages" f2
  let qi ← decodeStrList vqi
  some ((cm, qr, qi), f3)

/-- Decode the answer-image and teacher fields of a ticket object. -/
def decTickTeacher (f0 : List (String × Jval)) :
    Option ((List String × List String × String × String) × List (String × Jval)) := do
  let (vai, f1) ← fieldVal "answerImages" f0
  let ai ← decodeStrList vai
  let (vmi, f2) ← fieldVal "myAnswerImages" f1
  let mi ← decodeStrList vmi
  let (tm, f3) ← fieldStr "teacherMemo" f2
  let (stt, f4) ← fieldStr "status" f3
  some ((ai, mi, tm, stt), f4)

/-- Decode the timestamp and completion fields closing a ticket object. -/
def decTickStamps (f0 : List (String × Jval)) :
    Option (Option Nat × Option Nat × Option Nat × Option Bool) := do
  let (vca, f1) ← fieldVal "createdAt" f0
  let ca ← decodeOptNat vca
  let (vua, f2) ← fieldVal "updatedAt" f1
  let ua ← decodeOptNat vua
  let (vda, f3) ← fieldVal "doneAt" f2
  let da ← decodeOptNat vda
  let (vcbs, f4) ← fieldVal "completedByStudent" f3
  let cbs ← decodeOptBool vcbs
  match f4 with
  | [] => some (ca, ua, da, cbs)
  | _ => none

/-- Interpret a JSON value as a ticket record. -/
def decodeTicket (v : Jval) : Option Ticket :=
  match v with
  | .obj f0 => do
    let (a, f1) ← decTickIdent f0
    let (b, f2) ← decTickContent f1
    let (c, f3) ← decTickTeacher f2
    let (d1, d2, d3, d4) ← decTickStamps f3
    some ⟨a.1, a.2.1, a.2.2.1, a.2.2.2.1, a.2.2.2.2.1, a.2.2.2.2.2,
          b.1, b.2.1, b.2.2, c.1, c.2.1, c.2.2.1, c.2.2.2, d1, d2, d3, d4⟩
  | _ => none

def encodeTickets (l : List Ticket) : Jval :=
  .arr (l.map encodeTicket)

def decodeTicketList : List Jval → Option (List Ticket)
  | [] => some []
  | v :: rest => do
    let t ← decodeTicket v
    let ts ← decodeTicketList rest
    some (t :: ts)

def decodeTickets : Jval → Option (List Ticket)
  | .arr xs => decodeTicketList xs
  | _ => none

/-- Serialize one student record. -/
def encodeStudent (s : Student) : Jval :=
  .obj [("id", .str s.id), ("className", .str s.className),
        ("initials", .str s.initials), ("birthday", .str s.birthday),
        ("createdAt", encodeOptNat s.createdAt),
        ("updatedAt", encodeOptNat s.updatedAt)]

/-- Decode the four string fields of a student object. -/
def decStudIdent (f0 : List (String × Jval)) :
    Option ((String × String × String × String) × List (String × Jval)) := do
  let (id, f1) ← fieldStr "id" f0
  let (cn, f2) ← fieldStr "className" f1
  let (ini, f3) ← fieldStr "initials" f2
  let (bd, f4) ← fieldStr "birthday" f3
  some ((id, cn, ini, bd), f4)

/-- Decode the timestamp fields closing a student object. -/
def decStudStamps (f0 : List (String × Jval)) : Option (Option Nat × Option Nat) := do
  let (vca, f1) ← fieldVal "createdAt" f0
  let ca ← decodeOptNat vca
  let (vua, f2) ← fieldVal "updatedAt" f1
  let ua ← decodeOptNat vua
  match f2 with
  | [] => some (ca, ua)
  | _ => none

/-- Interpret a JSON value as a student record. -/
def decodeStudent (v : Jval) : Option Student :=
  match v with
  | .obj f0 => do
    let (a, f1) ← decStudIdent f0
    let (d1, d2) ← decStudStamps f1
    some ⟨a.1, a.2.1, a.2.2.1, a.2.2.2, d1, d2⟩
  | _ => none

def encodeStudents (l : List Student) : Jval :=
  .arr (l.map encodeStudent)

def decodeStudentList : List Jval → Option (List Student)
  | [] => some []
  | v :: rest => do
    let s ← decodeStudent v
    let ss ← decodeStudentList rest
    some (s :: ss)

def decodeStudents : Jval → Option (List Student)
  | .arr xs => decodeStudentList xs
  | _ => none

/-- The `loadTicketsFromLocal` (src/app.js line 149): `data ? JSON.parse(data) : []`
with a catch-all returning `[]`.  An absent key or an unparseable blob yields
the empty array; a blob that parses is returned as-is, with no shape check. -/
def loadTicketsFromLocal (stored : Option Blob) : Jval :=
  match stored with
  | none => .arr []
  | some .garbage => .arr []
  | some (.jv v) => v

/-- The `loadStudentsFromLocal` (src/app.js line 235): same logic, students key. -/
def loadStudentsFromLocal (stored : Option Blob) : Jval :=
  match stored with
  | none => .arr []
  | some .garbage => .arr []
  | some (.jv v) => v

/-! ## The sync-cache state and the full upsert/write paths -/

/-- In-memory caches, the two `localStorage` keys, the remote store (path
suffix under each collection, mapped to the JSON value last `set`), and the
toast notifications shown to the user. -/
structure SyncState where
  ticketsCache : List Ticket
  studentsCache : List Student
  localTickets : Option Blob
  localStudents : Option Blob
  remoteTickets : List (String × Jval)
  remoteStudents : List (String × Jval)
  toasts : List String
deriving Repr

/-- The `set` on the remote store at a path: overwrite or create. -/
def setAssoc (m : List (String × Jval)) (k : String) (v : Jval) : List (String × Jval) :=
  match m with
  | [] => [(k, v)]
  | (k', v') :: rest => if k' == k then (k, v) :: rest else (k', v') :: setAssoc rest k v

/-- The `upsertTicket` (src/app.js lines 169-197).  `configured` is
`isFirebaseConfigured() && database`; `setFails` states whether the remote
`set` rejects.  On remote failure: toast, re-throw, and no branch ever
touches the in-memory cache.  In local mode: replace-or-push in the cache and
persist the whole collection. -/
def upsertTicketSync (configured setFails : Bool) (st : SyncState)
    (p : TicketPatch) (now : Nat) : Except Unit Ticket × SyncState :=
  let t := upsertTicketApplied st.ticketsCache p now
  if configured then
    if setFails then
      (.error (), { st with toasts := st.toasts ++ ["保存に失敗しました"] })
    else
      (.ok t, { st with remoteTickets := setAssoc st.remoteTickets t.id (encodeTicket t) })
  else
    let cache := upsertTicketLocalList st.ticketsCache p now
    (.ok t, { st with ticketsCache := cache,
                      localTickets := some (.jv (encodeTickets cache)) })

/-- Encode the raw (possibly partial) student object `upsertStudent` writes to
the remote path; only present keys are emitted. -/
def encodeStudentPatch (p : StudentPatch) : Jval :=
  .obj ([("id", .str p.id)] ++
        (p.className.map (fun c => [("className", Jval.str c)])).getD [] ++
        (p.initials.map (fun i => [("initials", Jval.str i)])).getD [] ++
        (p.birthday.map (fun b => [("birthday", Jval.str b)])).getD [])

/-- The `upsertStudent` (src/app.js lines 255-280).  Generates an id when the
patch's id is falsy and no record matches; remote mode sets the raw patch
object; local mode shallow-merges into the cache (replace-or-push) and
persists; returns the input object (with the ensured id), not the merged
record, and stamps no timestamps. -/
def upsertStudentSync (configured setFails : Bool) (st : SyncState)
    (p : StudentPatch) (freshId : String) : Except Unit StudentPatch × SyncState :=
  let p := ensureStudentId st.studentsCache p freshId
  if configured then
    if setFails then
      (.error (), { st with toasts := st.toasts ++ ["保存に失敗しました"] })
    else
      (.ok p, { st with remoteStudents := setAssoc st.remoteStudents p.id (encodeStudentPatch p) })
  else
    let cache := upsertStudentLocalList st.studentsCache p
    (.ok p, { st with studentsCache := cache,
                      localStudents := some (.jv (encodeStudents cache)) })

/-! ## saveStudent (src/app.js lines 1564-1609) -/

/-- The regular expression test on the birthday input. -/
def isBirthday (b : String) : Bool :=
  b.length == 4 && b.data.all Char.isDigit

/-- Outcome of a `saveStudent` attempt; each error is surfaced via a toast. -/
inductive SaveErr where
  | noClass | noInitials | badBirthday | duplicate | setFailed
deriving Repr, DecidableEq

def pushToast (st : SyncState) (msg : String) : SyncState :=
  { st with toasts := st.toasts ++ [msg] }

/-- The `saveStudent`: read the form (`id` is the hidden field, empty when
adding), normalize the initials (`trim().toUpperCase()`), validate, run the
duplicate check excluding the edited id, then upsert.  Every rejection
happens before the write path is reached. -/
def saveStudent (configured setFails : Bool) (st : SyncState)
    (id className initialsRaw birthdayRaw freshId : String) :
    Option SaveErr × SyncState :=
  let initials := toUpperCase (jsTrim initialsRaw)
  let birthday := jsTrim birthdayRaw
  if className == "" then
    (some .noClass, pushToast st "クラスを選択してください")
  else if initials == "" then
    (some .noInitials, pushToast st "イニシャルを入力してください")
  else if !isBirthday birthday then
    (some .badBirthday, pushToast st "誕生日は4桁の数字で入力してください")
  else
    match st.studentsCache.find? (fun s =>
        s.className == className && toUpperCase s.initials == initials && s.id != id) with
    | some _ =>
      (some .duplicate, pushToast st "同じクラス・イニシャルの生徒が既に登録されています")
    | none =>
      let student : StudentPatch :=
        { id := if id == "" then freshId else id,
          className := some className, initials := some initials,
          birthday := some birthday }
      match upsertStudentSync configured setFails st student freshId with
      | (.error _, st') => (some .setFailed, st')
      | (.ok _, st') => (none, st')

/-! ## Ticket operations as a transition system (localStorage mode)

The four ticket-mutating flows of src/app.js, acting on the ticket cache.
`submit` is the validated submission flow: `showConfirmModal` runs
`checkTicketLimit(session.id)` with the current `currentEditingTicketId`, and
only then `submitTicket` builds `collectFormData()`, sets
`status = 'submitted'` and upserts. -/

/-- The student-controlled form fields of `collectFormData` (src/app.js
line 1334). -/
structure FormData where
  studentId : String
  className : String
  initials : String
  subject : String
  purpose : String
  questionReason : String
  checkedMaterials : List String
  questionImages : List String
  answerImages : List String
  myAnswerImages : List String
deriving Repr, DecidableEq

/-- The `collectFormData()`: id is `currentEditingTicketId || generateUUID()`,
`teacherMemo` is blanked and `doneAt` set to `null`. -/
def collectFormData (editing : Option String) (freshId : String) (f : FormData) : TicketPatch where
  id := editing.getD freshId
  studentId := some f.studentId
  className := some f.className
  initials := some f.initials
  subject := some f.subject
  purpose := some f.purpose
  checkedMaterials := some f.checkedMaterials
  questionReason := some f.questionReason
  questionImages := some f.questionImages
  answerImages := some f.answerImages
  myAnswerImages := some f.myAnswerImages
  teacherMemo := some ""
  doneAt := some none

/-- One ticket operation of the core. -/
inductive TOp where
  /-- The validated submission flow (`showConfirmModal` then `submitTicket`),
  with the session's `currentEditingTicketId`, the UUID that would be
  generated for a fresh ticket, the form fields, and the clock. -/
  | submit (editing : Option String) (freshId : String) (f : FormData) (now : Nat)
  /-- The `completeTicket` (teacher): memo from the textarea, `status = 'done'`,
  `doneAt = now`, upsert. -/
  | teacherComplete (id : String) (memo : String) (now : Nat)
  /-- The `completeStudentTicket`: `status = 'done'`, `doneAt = now`,
  `completedByStudent = true`, upsert. -/
  | studentComplete (id : String) (now : Nat)
  /-- The `saveTeacherMemo`: memo from the textarea, upsert. -/
  | saveMemo (id : String) (memo : String) (now : Nat)
deriving Repr, DecidableEq

/-- Apply one operation to the ticket cache (localStorage mode, where the
cache is the persisted collection). -/
def applyTOp (cache : List Ticket) : TOp → List Ticket
  | .submit editing freshId f now =>
    if checkTicketLimit cache f.studentId editing then
      upsertTicketLocalList cache
        { collectFormData editing freshId f with status := some "submitted" } now
    else cache
  | .teacherComplete id memo now =>
    match getTicketById cache id with
    | none => cache
    | some t =>
      upsertTicketLocalList cache
        (fullPatch { t with teacherMemo := memo, status := "done", doneAt := some now }) now
  | .studentComplete id now =>
    match getTicketById cache id with
    | none => cache
    | some t =>
      upsertTicketLocalList cache
        (fullPatch { t with status := "done", doneAt := some now,
                            completedByStudent := some true }) now
  | .saveMemo id memo now =>
    match getTicketById cache id with
    | none => cache
    | some t =>
      upsertTicketLocalList cache (fullPatch { t with teacherMemo := memo }) now

def runTOps (cache : List Ticket) (ops : List TOp) : List Ticket :=
  ops.foldl applyTOp cache

/-! ## The data-loaded callback queue (src/app.js lines 29-32, 109-123)

Callbacks are opaque; we track them by an identifier and log each invocation.
In the source, `firebaseReady = true` is always assigned before
`triggerDataLoadedCallbacks()` runs, so a callback registering another
callback during the drain sees the ready flag. -/

/-- The `firebaseReady`, `dataLoadedCallbacks`, and the log of invocations. -/
structure CbState where
  ready : Bool
  queue : List Nat
  log : List Nat
deriving Repr, DecidableEq

/-- The `waitForData(cb)`: invoke now when ready, else enqueue. -/
def waitForData (st : CbState) (cb : Nat) : CbState :=
  if st.ready then { st with log := st.log ++ [cb] }
  else { st with queue := st.queue ++ [cb] }

/-- The `triggerDataLoadedCallbacks()`: invoke every queued callback, then clear
the queue. -/
def triggerDataLoadedCallbacks (st : CbState) : CbState :=
  { st with log := st.log ++ st.queue, queue := [] }

/-- Events of the startup protocol: registering a consumer, or the core
reaching Ready (`firebaseReady = true` followed by the drain). -/
inductive CbOp where
  | reg (cb : Nat)
  | ready
deriving Repr, DecidableEq

def applyCbOp (st : CbState) : CbOp → CbState
  | .reg cb => waitForData st cb
  | .ready => triggerDataLoadedCallbacks { st with ready := true }

def runCbOps (st : CbState) (ops : List CbOp) : CbState :=
  ops.foldl applyCbOp st

/-- The state before initialization. -/
def cbInit : CbState := ⟨false, [], []⟩

/-- Whether a ticket counts toward a student's open-ticket total. -/
def countsFor (t : Ticket) (s : String) : Bool :=
  t.studentId == s && t.status == "submitted"

/-- The match predicate of `findStudent`, as a proposition: exact on
`className` and `birthday`, case-insensitive on `initials`. -/
def studentMatches (s : Student) (className initials birthday : String) : Prop :=
  s.className = className ∧ toUpperCase s.initials = toUpperCase initials ∧ s.birthday = birthday

/-- The reachability invariant of the ticket cache in local mode: ids are
distinct and no student has more than the limit of open tickets. -/
def TInv (c : List Ticket) : Prop :=
  (c.map Ticket.id).Nodup ∧
    ∀ s, getActiveTicketCount c s none ≤ MAX_TICKETS_PER_STUDENT

/-- A submit operation respects the UI discipline: the ticket id it writes to
(the edited id, or the fresh UUID) is not currently a `done` ticket.  The
rendering layer enforces this by only offering the edit flow on open tickets;
the core operations themselves do not check it. -/
def submitOk (cache : List Ticket) : TOp → Prop
  | .submit editing freshId _ _ =>
    ∀ t, getTicketById cache (editing.getD freshId) = some t → t.status ≠ "done"
  | _ => True

/-- Every submit along the run respects the UI discipline. -/
def goodRun (cache : List Ticket) : List TOp → Prop
  | [] => True
  | op :: ops => submitOk cache op ∧ goodRun (applyTOp cache op) ops

/-! # Lemmas -/

theorem bne_of_some_none (a : String) : (some a != (none : Option String)) = true := rfl

theorem bne_of_some_some (a b : String) : (some a != some b) = (a != b) := by
  simp [bne]

theorem indTrue {b : Bool} (h : b = true) : (if b then 1 else 0 : Nat) = 1 := by simp [h]

theorem indFalse {b : Bool} (h : b = false) : (if b then 1 else 0 : Nat) = 0 := by simp [h]

theorem freshTicket_id (p : TicketPatch) (n : Nat) : (freshTicket p n).id = p.id := rfl

theorem mergedTicket_id (t : Ticket) (p : TicketPatch) (n : Nat) :
    (mergedTicket t p n).id = p.id := rfl

theorem upsertTicketLocalList_nil (p : TicketPatch) (n : Nat) :
    upsertTicketLocalList [] p n = [freshTicket p n] := rfl

theorem upsertTicketLocalList_cons (t : Ticket) (rest : List Ticket) (p : TicketPatch) (n : Nat) :
    upsertTicketLocalList (t :: rest) p n =
      if t.id == p.id then mergedTicket t p n :: rest
      else t :: upsertTicketLocalList rest p n := rfl

/-- The `find?` on a cons, as an if. -/
theorem find?_cons_eq {α : Type} (p : α → Bool) (a : α) (l : List α) :
    (a :: l).find? p = if p a then some a else l.find? p := by
  cases h : p a
  · simp [h]
  · simp [h]

theorem upsertTicketApplied_nil (p : TicketPatch) (n : Nat) :
    upsertTicketApplied [] p n = freshTicket p n := rfl

theorem upsertTicketApplied_id (c : List Ticket) (p : TicketPatch) (n : Nat) :
    (upsertTicketApplied c p n).id = p.id := by
  unfold upsertTicketApplied
  cases c.find? (fun t => t.id == p.id) <;> rfl

theorem upsertTicketApplied_cons_pos (t : Ticket) (c : List Ticket) (p : TicketPatch) (n : Nat)
    (h : (t.id == p.id) = true) :
    upsertTicketApplied (t :: c) p n = mergedTicket t p n := by
  unfold upsertTicketApplied
  rw [find?_cons_eq, if_pos h]

theorem upsertTicketApplied_cons_ne (t : Ticket) (c : List Ticket) (p : TicketPatch) (n : Nat)
    (h : (t.id == p.id) = false) :
    upsertTicketApplied (t :: c) p n = upsertTicketApplied c p n := by
  unfold upsertTicketApplied
  rw [find?_cons_eq, if_neg (by simp [h])]

theorem getTicketById_nil (x : String) : getTicketById [] x = none := rfl

theorem getTicketById_cons (t : Ticket) (rest : List Ticket) (x : String) :
    getTicketById (t :: rest) x = if t.id == x then some t else getTicketById rest x := by
  unfold getTicketById
  rw [find?_cons_eq]

theorem getTicketById_some_id (c : List Ticket) (x : String) (t : Ticket)
    (h : getTicketById c x = some t) : t.id = x := by
  have := List.find?_some h
  simpa using this

/-- The `getActiveTicketCount` unfolded one ticket at a time. -/
theorem cnt_cons (t : Ticket) (c : List Ticket) (s : String) (e : Option String) :
    getActiveTicketCount (t :: c) s e =
      getActiveTicketCount c s e +
        (if countsFor t s && (some t.id != e) then 1 else 0) := by
  simp only [getActiveTicketCount, countsFor, List.filter_cons]
  split
  · simp [Nat.add_comm]
  · simp

theorem cnt_nil (s : String) (e : Option String) : getActiveTicketCount [] s e = 0 := rfl

/-- Excluding an id never increases the open-ticket count. -/
theorem cnt_exclude_le (c : List Ticket) (s : String) (e : String) :
    getActiveTicketCount c s (some e) ≤ getActiveTicketCount c s none := by
  induction c with
  | nil => simp [cnt_nil]
  | cons t rest ih =>
    rw [cnt_cons, cnt_cons, bne_of_some_none, Bool.and_true]
    have hle : (if countsFor t s && (some t.id != some e) then 1 else 0 : Nat) ≤
        (if countsFor t s then 1 else 0) := by
      cases hc : countsFor t s
      · simp
      · split <;> simp
    omega

/-- Excluding an id that no ticket bears changes nothing. -/
theorem cnt_exclude_eq_of_not_mem (c : List Ticket) (s : String) (e : String)
    (h : ∀ t ∈ c, t.id ≠ e) :
    getActiveTicketCount c s (some e) = getActiveTicketCount c s none := by
  induction c with
  | nil => simp [cnt_nil]
  | cons t rest ih =>
    rw [cnt_cons, cnt_cons, bne_of_some_none, Bool.and_true]
    have ht : t.id ≠ e := h t (List.mem_cons_self t rest)
    have hbne : (some t.id != some e) = true := by
      rw [bne_of_some_some]
      simpa using ht
    rw [hbne, Bool.and_true, ih (fun u hu => h u (List.mem_cons_of_mem _ hu))]

/-- Excluding the id of a counting member drops the count by at least one. -/
theorem cnt_exclude_succ_le (c : List Ticket) (s : String) (t : Ticket)
    (hmem : t ∈ c) (hcnt : countsFor t s = true) :
    getActiveTicketCount c s (some t.id) + 1 ≤ getActiveTicketCount c s none := by
  induction c with
  | nil => simp at hmem
  | cons u rest ih =>
    rw [cnt_cons, cnt_cons, bne_of_some_none, Bool.and_true]
    rcases List.mem_cons.mp hmem with rfl | hmem'
    · have h1 : (countsFor t s && (some t.id != some t.id)) = false := by
        rw [bne_of_some_some]
        simp
      rw [indFalse h1, indTrue hcnt]
      have := cnt_exclude_le rest s t.id
      omega
    · have hrec := ih hmem'
      have hle : (if countsFor u s && (some u.id != some t.id) then 1 else 0 : Nat) ≤
          (if countsFor u s then 1 else 0) := by
        cases hc : countsFor u s
        · simp
        · split <;> simp
      omega

/-- Membership in the ids of an upserted cache. -/
theorem mem_ids_upsert (c : List Ticket) (p : TicketPatch) (n : Nat) (x : String) :
    x ∈ (upsertTicketLocalList c p n).map Ticket.id ↔
      x ∈ c.map Ticket.id ∨ x = p.id := by
  induction c with
  | nil =>
    simp [upsertTicketLocalList_nil, freshTicket_id, eq_comm]
  | cons t rest ih =>
    cases hid : t.id == p.id with
    | true =>
      have hip : t.id = p.id := by simpa using hid
      rw [upsertTicketLocalList_cons, if_pos hid]
      simp only [List.map_cons, List.mem_cons, mergedTicket_id, hip]
      tauto
    | false =>
      rw [upsertTicketLocalList_cons, if_neg (by simp [hid])]
      simp only [List.map_cons, List.mem_cons, ih]
      tauto

/-- Upserting preserves distinctness of ids. -/
theorem nodup_ids_upsert (c : List Ticket) (p : TicketPatch) (n : Nat)
    (h : (c.map Ticket.id).Nodup) :
    ((upsertTicketLocalList c p n).map Ticket.id).Nodup := by
  induction c with
  | nil => simp [upsertTicketLocalList_nil, freshTicket_id]
  | cons t rest ih =>
    rw [List.map_cons, List.nodup_cons] at h
    cases hid : t.id == p.id with
    | true =>
      have hip : t.id = p.id := by simpa using hid
      rw [upsertTicketLocalList_cons, if_pos hid]
      rw [List.map_cons, List.nodup_cons, mergedTicket_id]
      exact ⟨by rw [← hip]; exact h.1, h.2⟩
    | false =>
      rw [upsertTicketLocalList_cons, if_neg (by simp [hid])]
      rw [List.map_cons, List.nodup_cons]
      refine ⟨fun hmem => ?_, ih h.2⟩
      rcases (mem_ids_upsert rest p n t.id).mp hmem with hm | hm
      · exact h.1 hm
      · rw [hm] at hid
        simp at hid

/-- The open-ticket count after an upsert: the count excluding the upserted
id, plus one exactly when the stored record itself counts. -/
theorem cnt_upsert (c : List Ticket) (p : TicketPatch) (n : Nat) (s : String)
    (hnd : (c.map Ticket.id).Nodup) :
    getActiveTicketCount (upsertTicketLocalList c p n) s none =
      getActiveTicketCount c s (some p.id) +
        (if countsFor (upsertTicketApplied c p n) s then 1 else 0) := by
  induction c with
  | nil =>
    rw [upsertTicketLocalList_nil, cnt_cons, cnt_nil, cnt_nil, bne_of_some_none, Bool.and_true]
    rfl
  | cons t rest ih =>
    rw [List.map_cons, List.nodup_cons] at hnd
    cases hid : t.id == p.id with
    | true =>
      have hip : t.id = p.id := by simpa using hid
      rw [upsertTicketLocalList_cons, if_pos hid,
        upsertTicketApplied_cons_pos t rest p n hid, cnt_cons, cnt_cons]
      have hrest : getActiveTicketCount rest s (some p.id) =
          getActiveTicketCount rest s none := by
        refine cnt_exclude_eq_of_not_mem rest s p.id (fun u hu hup => ?_)
        apply hnd.1
        rw [hip, ← hup]
        exact List.mem_map_of_mem Ticket.id hu
      have hexcl : (countsFor t s && (some t.id != some p.id)) = false := by
        rw [bne_of_some_some]
        simp [hip]
      rw [indFalse hexcl, bne_of_some_none, Bool.and_true, hrest]
      omega
    | false =>
      rw [upsertTicketLocalList_cons, if_neg (by simp [hid]),
        upsertTicketApplied_cons_ne t rest p n hid, cnt_cons, cnt_cons, ih hnd.2,
        bne_of_some_none, Bool.and_true]
      have htid : t.id ≠ p.id := by simpa using hid
      have hbne : (some t.id != some p.id) = true := by
        rw [bne_of_some_some]
        simpa using htid
      rw [hbne, Bool.and_true]
      omega

/-- Lookup after an upsert: the upserted id maps to the merged record,
every other id is untouched. -/
theorem getTicketById_upsert (c : List Ticket) (p : TicketPatch) (n : Nat) (x : String) :
    getTicketById (upsertTicketLocalList c p n) x =
      if x = p.id then some (upsertTicketApplied c p n) else getTicketById c x := by
  induction c with
  | nil =>
    rw [upsertTicketLocalList_nil, getTicketById_cons, upsertTicketApplied_nil,
      getTicketById_nil, freshTicket_id]
    by_cases hx : x = p.id
    · rw [if_pos (by simp [hx]), if_pos hx]
    · rw [if_neg (by simp [Ne.symm hx]), if_neg hx]
  | cons t rest ih =>
    cases hid : t.id == p.id with
    | true =>
      have hip : t.id = p.id := by simpa using hid
      rw [upsertTicketLocalList_cons, if_pos hid, upsertTicketApplied_cons_pos t rest p n hid,
        getTicketById_cons, getTicketById_cons, mergedTicket_id]
      by_cases hx : x = p.id
      · rw [if_pos (by simp [hx]), if_pos hx]
      · rw [if_neg (by simp [Ne.symm hx]), if_neg hx, if_neg (by simp [hip, Ne.symm hx])]
    | false =>
      rw [upsertTicketLocalList_cons, if_neg (by simp [hid]),
        upsertTicketApplied_cons_ne t rest p n hid, getTicketById_cons, getTicketById_cons]
      by_cases hx : x = p.id
      · subst hx
        rw [if_pos rfl, if_neg (by simp [hid])]
        have hrec := ih
        rw [if_pos rfl] at hrec
        exact hrec
      · rw [if_neg hx]
        cases ht : t.id == x with
        | true => rw [if_pos rfl, if_pos rfl]
        | false =>
          rw [if_neg (by simp), if_neg (by simp)]
          have hrec := ih
          rw [if_neg hx] at hrec
          exact hrec

/-! ## Behavior of the four ticket operations -/

theorem applyTOp_submit (c : List Ticket) (e : Option String) (fid : String)
    (f : FormData) (now : Nat) :
    applyTOp c (.submit e fid f now) =
      if checkTicketLimit c f.studentId e then
        upsertTicketLocalList c
          { collectFormData e fid f with status := some "submitted" } now
      else c := rfl

theorem applyTOp_teacherComplete (c : List Ticket) (id memo : String) (now : Nat) :
    applyTOp c (.teacherComplete id memo now) =
      match getTicketById c id with
      | none => c
      | some t =>
        upsertTicketLocalList c
          (fullPatch { t with teacherMemo := memo, status := "done", doneAt := some now }) now
  := rfl

theorem applyTOp_studentComplete (c : List Ticket) (id : String) (now : Nat) :
    applyTOp c (.studentComplete id now) =
      match getTicketById c id with
      | none => c
      | some t =>
        upsertTicketLocalList c
          (fullPatch { t with status := "done", doneAt := some now,
                              completedByStudent := some true }) now
  := rfl

theorem applyTOp_saveMemo (c : List Ticket) (id memo : String) (now : Nat) :
    applyTOp c (.saveMemo id memo now) =
      match getTicketById c id with
      | none => c
      | some t =>
        upsertTicketLocalList c (fullPatch { t with teacherMemo := memo }) now
  := rfl

theorem upsertTicketApplied_studentId_of_some (c : List Ticket) (p : TicketPatch) (n : Nat)
    (s : String) (h : p.studentId = some s) :
    (upsertTicketApplied c p n).studentId = s := by
  unfold upsertTicketApplied
  cases c.find? (fun t => t.id == p.id) <;> simp [mergedTicket, freshTicket, h]

theorem upsertTicketApplied_status_of_some (c : List Ticket) (p : TicketPatch) (n : Nat)
    (st : String) (h : p.status = some st) :
    (upsertTicketApplied c p n).status = st := by
  unfold upsertTicketApplied
  cases c.find? (fun t => t.id == p.id) <;> simp [mergedTicket, freshTicket, h]

theorem upsertTicketApplied_of_find (c : List Ticket) (p : TicketPatch) (n : Nat) (t0 : Ticket)
    (h : c.find? (fun u => u.id == p.id) = some t0) :
    upsertTicketApplied c p n = mergedTicket t0 p n := by
  unfold upsertTicketApplied
  rw [h]

/-- The `checkTicketLimit` read back as an arithmetic fact. -/
theorem checkTicketLimit_iff (c : List Ticket) (s : String) (e : Option String) :
    checkTicketLimit c s e = true ↔
      getActiveTicketCount c s e < MAX_TICKETS_PER_STUDENT := by
  simp [checkTicketLimit]

/-- Every operation preserves the reachability invariant. -/
theorem tinv_applyTOp (c : List Ticket) (op : TOp) (h : TInv c) : TInv (applyTOp c op) := by
  obtain ⟨hnd, hcnt⟩ := h
  cases op with
  | submit e fid f now =>
    rw [applyTOp_submit]
    cases hg : checkTicketLimit c f.studentId e with
    | false =>
      rw [if_neg (by simp)]
      exact ⟨hnd, hcnt⟩
    | true =>
      rw [if_pos rfl]
      rw [checkTicketLimit_iff] at hg
      set p : TicketPatch :=
        { collectFormData e fid f with status := some "submitted" } with hp
      refine ⟨nodup_ids_upsert c p now hnd, fun s => ?_⟩
      have hstu : (upsertTicketApplied c p now).studentId = f.studentId :=
        upsertTicketApplied_studentId_of_some c p now f.studentId rfl
      rw [cnt_upsert c p now s hnd]
      by_cases hs : f.studentId = s
      · subst hs
        have hind : (if countsFor (upsertTicketApplied c p now) f.studentId then 1 else 0 : Nat)
            ≤ 1 := by
          split <;> omega
        cases e with
        | none =>
          have h1 := cnt_exclude_le c f.studentId p.id
          unfold MAX_TICKETS_PER_STUDENT at hg ⊢
          omega
        | some eid =>
          have hpid : p.id = eid := rfl
          rw [hpid]
          unfold MAX_TICKETS_PER_STUDENT at hg ⊢
          omega
      · have hind : countsFor (upsertTicketApplied c p now) s = false := by
          simp [countsFor, hstu, hs]
        rw [indFalse hind]
        have := cnt_exclude_le c s p.id
        have := hcnt s
        omega
  | teacherComplete id memo now =>
    rw [applyTOp_teacherComplete]
    cases hfind : getTicketById c id with
    | none => exact ⟨hnd, hcnt⟩
    | some t0 =>
      set p : TicketPatch :=
        fullPatch { t0 with teacherMemo := memo, status := "done", doneAt := some now } with hp
      refine ⟨nodup_ids_upsert c p now hnd, fun s => ?_⟩
      have hst : (upsertTicketApplied c p now).status = "done" :=
        upsertTicketApplied_status_of_some c p now "done" rfl
      have hind : countsFor (upsertTicketApplied c p now) s = false := by
        simp [countsFor, hst]
      rw [cnt_upsert c p now s hnd, indFalse hind]
      have := cnt_exclude_le c s p.id
      have := hcnt s
      omega
  | studentComplete id now =>
    rw [applyTOp_studentComplete]
    cases hfind : getTicketById c id with
    | none => exact ⟨hnd, hcnt⟩
    | some t0 =>
      set p : TicketPatch :=
        fullPatch { t0 with status := "done", doneAt := some now,
                            completedByStudent := some true } with hp
      refine ⟨nodup_ids_upsert c p now hnd, fun s => ?_⟩
      have hst : (upsertTicketApplied c p now).status = "done" :=
        upsertTicketApplied_status_of_some c p now "done" rfl
      have hind : countsFor (upsertTicketApplied c p now) s = false := by
        simp [countsFor, hst]
      rw [cnt_upsert c p now s hnd, indFalse hind]
      have := cnt_exclude_le c s p.id
      have := hcnt s
      omega
  | saveMemo id memo now =>
    rw [applyTOp_saveMemo]
    cases hfind : getTicketById c id with
    | none => exact ⟨hnd, hcnt⟩
    | some t0 =>
      set p : TicketPatch := fullPatch { t0 with teacherMemo := memo } with hp
      refine ⟨nodup_ids_upsert c p now hnd, fun s => ?_⟩
      have hfid : t0.id = id := getTicketById_some_id c id t0 hfind
      have happ : upsertTicketApplied c p now = mergedTicket t0 p now := by
        apply upsertTicketApplied_of_find
        have hpid : p.id = id := by rw [hp]; simpa [fullPatch] using hfid
        simp only [hpid]
        unfold getTicketById at hfind
        exact hfind
      have hstu : (upsertTicketApplied c p now).studentId = t0.studentId := by
        rw [happ, hp]
        simp [mergedTicket, fullPatch]
      have hst : (upsertTicketApplied c p now).status = t0.status := by
        rw [happ, hp]
        simp [mergedTicket, fullPatch]
      rw [cnt_upsert c p now s hnd]
      by_cases hc : countsFor t0 s = true
      · have hmem : t0 ∈ c := List.mem_of_find?_eq_some hfind
        have hord := cnt_exclude_succ_le c s t0 hmem hc
        have hind : (if countsFor (upsertTicketApplied c p now) s then 1 else 0 : Nat) ≤ 1 := by
          split <;> omega
        have hpid : p.id = t0.id := by rw [hp]; simp [fullPatch]
        rw [hpid]
        have := hcnt s
        omega
      · have hc' : countsFor t0 s = false := by
          cases hcc : countsFor t0 s
          · rfl
          · exact absurd hcc hc
        have hind : countsFor (upsertTicketApplied c p now) s = false := by
          unfold countsFor at hc' ⊢
          rw [hstu, hst]
          exact hc'
        rw [indFalse hind]
        have := cnt_exclude_le c s p.id
        have := hcnt s
        omega

/-- The invariant along any run from a state satisfying it. -/
theorem tinv_runTOps (ops : List TOp) (c : List Ticket) (h : TInv c) :
    TInv (runTOps c ops) := by
  induction ops generalizing c with
  | nil => exact h
  | cons op ops ih => exact ih (applyTOp c op) (tinv_applyTOp c op h)

theorem tinv_nil : TInv [] := by
  constructor
  · simp
  · intro s
    simp [cnt_nil]

/-- With distinct ids, a member is found by its own id. -/
theorem getTicketById_of_mem_nodup (c : List Ticket) (t : Ticket)
    (hnd : (c.map Ticket.id).Nodup) (hmem : t ∈ c) :
    getTicketById c t.id = some t := by
  induction c with
  | nil => simp at hmem
  | cons u rest ih =>
    rw [List.map_cons, List.nodup_cons] at hnd
    rw [getTicketById_cons]
    rcases List.mem_cons.mp hmem with rfl | hmem'
    · rw [if_pos (by simp)]
    · have hne : (u.id == t.id) = false := by
        have : u.id ≠ t.id := fun he => hnd.1 (he ▸ List.mem_map_of_mem Ticket.id hmem')
        simpa using this
      rw [if_neg (by simp [hne])]
      exact ih hnd.2 hmem'

/-- A single operation never moves a ticket out of `done`, provided a submit
never targets a currently-`done` id. -/
theorem done_preserved_applyTOp (c : List Ticket) (op : TOp) (hok : submitOk c op)
    (id : String) (t : Ticket) (hfind : getTicketById c id = some t)
    (hdone : t.status = "done") :
    ∃ t', getTicketById (applyTOp c op) id = some t' ∧ t'.status = "done" := by
  cases op with
  | submit e fid f now =>
    rw [applyTOp_submit]
    cases hg : checkTicketLimit c f.studentId e with
    | false =>
      rw [if_neg (by simp)]
      exact ⟨t, hfind, hdone⟩
    | true =>
      rw [if_pos rfl]
      set p : TicketPatch :=
        { collectFormData e fid f with status := some "submitted" } with hp
      have hpid : p.id = e.getD fid := rfl
      by_cases hx : id = p.id
      · exfalso
        refine hok t ?_ hdone
        rw [← hpid, ← hx]
        exact hfind
      · rw [getTicketById_upsert, if_neg hx]
        exact ⟨t, hfind, hdone⟩
  | teacherComplete tid memo now =>
    rw [applyTOp_teacherComplete]
    cases hf : getTicketById c tid with
    | none => exact ⟨t, hfind, hdone⟩
    | some t0 =>
      set p : TicketPatch :=
        fullPatch { t0 with teacherMemo := memo, status := "done", doneAt := some now } with hp
      have hst : (upsertTicketApplied c p now).status = "done" :=
        upsertTicketApplied_status_of_some c p now "done" rfl
      rw [getTicketById_upsert]
      by_cases hx : id = p.id
      · rw [if_pos hx]
        exact ⟨_, rfl, hst⟩
      · rw [if_neg hx]
        exact ⟨t, hfind, hdone⟩
  | studentComplete tid now =>
    rw [applyTOp_studentComplete]
    cases hf : getTicketById c tid with
    | none => exact ⟨t, hfind, hdone⟩
    | some t0 =>
      set p : TicketPatch :=
        fullPatch { t0 with status := "done", doneAt := some now,
                            completedByStudent := some true } with hp
      have hst : (upsertTicketApplied c p now).status = "done" :=
        upsertTicketApplied_status_of_some c p now "done" rfl
      rw [getTicketById_upsert]
      by_cases hx : id = p.id
      · rw [if_pos hx]
        exact ⟨_, rfl, hst⟩
      · rw [if_neg hx]
        exact ⟨t, hfind, hdone⟩
  | saveMemo tid memo now =>
    rw [applyTOp_saveMemo]
    cases hf : getTicketById c tid with
    | none => exact ⟨t, hfind, hdone⟩
    | some t0 =>
      set p : TicketPatch := fullPatch { t0 with teacherMemo := memo } with hp
      have hfid : t0.id = tid := getTicketById_some_id c tid t0 hf
      have hpid : p.id = tid := by
        rw [hp]
        simpa [fullPatch] using hfid
      rw [getTicketById_upsert]
      by_cases hx : id = p.id
      · have hid_eq : id = tid := by rw [hx, hpid]
        have ht0 : t0 = t := by
          rw [hid_eq, hf] at hfind
          exact Option.some.inj hfind
        have happ : upsertTicketApplied c p now = mergedTicket t0 p now := by
          apply upsertTicketApplied_of_find
          simp only [hpid]
          unfold getTicketById at hf
          exact hf
        have hst : (upsertTicketApplied c p now).status = t0.status := by
          rw [happ, hp]
          simp [mergedTicket, fullPatch]
        rw [if_pos hx]
        exact ⟨_, rfl, by rw [hst, ht0, hdone]⟩
      · rw [if_neg hx]
        exact ⟨t, hfind, hdone⟩

/-- C1: starting from an empty store, after any sequence of the core's ticket
operations (validated submissions, completions, memo saves), no student ever
has more than `MAX_TICKETS_PER_STUDENT` tickets in status `submitted`; a new
submission attempted at the limit is rejected with no state change; editing
an open ticket excludes its own id from the count, so the limit check passes
for it; and after completing one open ticket the limit check passes again for
a new submission. -/
theorem C1_open_ticket_limit (ops : List TOp) (s : String) :
    (getActiveTicketCount (runTOps [] ops) s none ≤ MAX_TICKETS_PER_STUDENT)
    ∧ (∀ (f : FormData) (freshId : String) (now : Nat),
        f.studentId = s →
        MAX_TICKETS_PER_STUDENT ≤ getActiveTicketCount (runTOps [] ops) s none →
        applyTOp (runTOps [] ops) (.submit none freshId f now) = runTOps [] ops)
    ∧ (∀ t : Ticket, t ∈ runTOps [] ops → t.studentId = s → t.status = "submitted" →
        checkTicketLimit (runTOps [] ops) s (some t.id) = true)
    ∧ (∀ (t : Ticket) (memo : String) (nowC : Nat),
        t ∈ runTOps [] ops → t.studentId = s → t.status = "submitted" →
        checkTicketLimit (applyTOp (runTOps [] ops) (.teacherComplete t.id memo nowC))
          s none = true) := by
  obtain ⟨hnd, hcnt⟩ := tinv_runTOps ops [] tinv_nil
  refine ⟨hcnt s, ?_, ?_, ?_⟩
  · intro f freshId now hsid hge
    have hnot : ¬ (checkTicketLimit (runTOps [] ops) f.studentId none = true) := by
      rw [checkTicketLimit_iff, hsid]
      omega
    have hlim : checkTicketLimit (runTOps [] ops) f.studentId none = false := by
      cases hv : checkTicketLimit (runTOps [] ops) f.studentId none
      · rfl
      · exact absurd hv hnot
    rw [applyTOp_submit, hlim, if_neg (by simp)]
  · intro t hmem hsid hstat
    have hc : countsFor t s = true := by simp [countsFor, hsid, hstat]
    have hord := cnt_exclude_succ_le (runTOps [] ops) s t hmem hc
    have := hcnt s
    rw [checkTicketLimit_iff]
    unfold MAX_TICKETS_PER_STUDENT at *
    omega
  · intro t memo nowC hmem hsid hstat
    have hc : countsFor t s = true := by simp [countsFor, hsid, hstat]
    have hord := cnt_exclude_succ_le (runTOps [] ops) s t hmem hc
    have hfind : getTicketById (runTOps [] ops) t.id = some t :=
      getTicketById_of_mem_nodup (runTOps [] ops) t hnd hmem
    rw [applyTOp_teacherComplete, hfind]
    set p : TicketPatch :=
      fullPatch { t with teacherMemo := memo, status := "done", doneAt := some nowC } with hp
    have hst : (upsertTicketApplied (runTOps [] ops) p nowC).status = "done" :=
      upsertTicketApplied_status_of_some (runTOps [] ops) p nowC "done" rfl
    have hind : countsFor (upsertTicketApplied (runTOps [] ops) p nowC) s = false := by
      simp [countsFor, hst]
    have hpid : p.id = t.id := by
      rw [hp]
      simp [fullPatch]
    rw [checkTicketLimit_iff, cnt_upsert (runTOps [] ops) p nowC s hnd, indFalse hind, hpid]
    have := hcnt s
    unfold MAX_TICKETS_PER_STUDENT at *
    omega

/-- Witness for C1: after three validated submissions for student `s1`, the
count is at the limit and a fourth submission leaves the store unchanged. -/
theorem C1_open_ticket_limit_witness :
    (getActiveTicketCount (runTOps []
        [TOp.submit none "t1" ⟨"s1", "4S", "AB", "math", "question", "why", ["tb"], [], [], []⟩ 1,
         TOp.submit none "t2" ⟨"s1", "4S", "AB", "math", "question", "why", ["tb"], [], [], []⟩ 2,
         TOp.submit none "t3" ⟨"s1", "4S", "AB", "math", "question", "why", ["tb"], [], [], []⟩ 3])
        "s1" none ≤ MAX_TICKETS_PER_STUDENT)
    ∧ applyTOp (runTOps []
        [TOp.submit none "t1" ⟨"s1", "4S", "AB", "math", "question", "why", ["tb"], [], [], []⟩ 1,
         TOp.submit none "t2" ⟨"s1", "4S", "AB", "math", "question", "why", ["tb"], [], [], []⟩ 2,
         TOp.submit none "t3" ⟨"s1", "4S", "AB", "math", "question", "why", ["tb"], [], [], []⟩ 3])
        (TOp.submit none "t4" ⟨"s1", "4S", "AB", "math", "question", "why", ["tb"], [], [], []⟩ 4) =
      runTOps []
        [TOp.submit none "t1" ⟨"s1", "4S", "AB", "math", "question", "why", ["tb"], [], [], []⟩ 1,
         TOp.submit none "t2" ⟨"s1", "4S", "AB", "math", "question", "why", ["tb"], [], [], []⟩ 2,
         TOp.submit none "t3" ⟨"s1", "4S", "AB", "math", "question", "why", ["tb"], [], [], []⟩ 3] := by
  refine ⟨(C1_open_ticket_limit
      [TOp.submit none "t1" ⟨"s1", "4S", "AB", "math", "question", "why", ["tb"], [], [], []⟩ 1,
       TOp.submit none "t2" ⟨"s1", "4S", "AB", "math", "question", "why", ["tb"], [], [], []⟩ 2,
       TOp.submit none "t3" ⟨"s1", "4S", "AB", "math", "question", "why", ["tb"], [], [], []⟩ 3]
      "s1").1,
    (C1_open_ticket_limit
      [TOp.submit none "t1" ⟨"s1", "4S", "AB", "math", "question", "why", ["tb"], [], [], []⟩ 1,
       TOp.submit none "t2" ⟨"s1", "4S", "AB", "math", "question", "why", ["tb"], [], [], []⟩ 2,
       TOp.submit none "t3" ⟨"s1", "4S", "AB", "math", "question", "why", ["tb"], [], [], []⟩ 3]
      "s1").2.1 ⟨"s1", "4S", "AB", "math", "question", "why", ["tb"], [], [], []⟩ "t4" 4 rfl
      (by decide)⟩

/-- C2 counterexample: `submitTicket` sets `status = 'submitted'`
unconditionally, so submitting an edit whose `currentEditingTicketId` points
at a completed ticket moves that ticket from `done` back to `submitted`. -/
theorem C2_status_counterexample :
    ((getTicketById (runTOps []
        [TOp.submit none "t1" ⟨"s1", "4S", "AB", "math", "question", "why", ["tb"], [], [], []⟩ 1,
         TOp.teacherComplete "t1" "memo" 2]) "t1").map Ticket.status = some "done")
    ∧ ((getTicketById (runTOps []
        [TOp.submit none "t1" ⟨"s1", "4S", "AB", "math", "question", "why", ["tb"], [], [], []⟩ 1,
         TOp.teacherComplete "t1" "memo" 2,
         TOp.submit (some "t1") "t2"
           ⟨"s1", "4S", "AB", "math", "question", "why", ["tb"], [], [], []⟩ 3]) "t1").map
        Ticket.status = some "submitted") := by
  constructor
  · rfl
  · rfl

/-- C2 (amended): across any sequence of the four ticket operations in which
every submission targets a fresh id or a ticket that is currently
`submitted` (the discipline the rendering layer enforces by offering the edit
flow only on open tickets), a `done` ticket stays `done`: no transition from
`done` back to `submitted` occurs, and completions and memo saves never
revive a ticket. -/
theorem C2_status_transitions (ops : List TOp) (c : List Ticket) (id : String) (t : Ticket)
    (hgood : goodRun c ops) (hfind : getTicketById c id = some t)
    (hdone : t.status = "done") :
    ∃ t', getTicketById (runTOps c ops) id = some t' ∧ t'.status = "done" := by
  induction ops generalizing c t with
  | nil => exact ⟨t, hfind, hdone⟩
  | cons op ops ih =>
    obtain ⟨hok, hrest⟩ := hgood
    obtain ⟨t', hf', hd'⟩ := done_preserved_applyTOp c op hok id t hfind hdone
    exact ih (applyTOp c op) t' hrest hf' hd'

/-- Witness for the amended C2: a memo save on a completed ticket leaves it
`done`. -/
theorem C2_status_transitions_witness :
    ∃ t', getTicketById (runTOps
        [⟨"t1", "s1", "4S", "AB", "math", "question", ["tb"], "why", [], [], [], "m", "done",
          some 1, some 2, some 2, none⟩]
        [TOp.saveMemo "t1" "m2" 5]) "t1" = some t' ∧ t'.status = "done" := by
  apply C2_status_transitions [TOp.saveMemo "t1" "m2" 5]
    [⟨"t1", "s1", "4S", "AB", "math", "question", ["tb"], "why", [], [], [], "m", "done",
      some 1, some 2, some 2, none⟩] "t1"
    ⟨"t1", "s1", "4S", "AB", "math", "question", ["tb"], "why", [], [], [], "m", "done",
      some 1, some 2, some 2, none⟩
  · exact ⟨trivial, trivial⟩
  · rfl
  · rfl

/-! ## Idempotence of the ticket upsert -/

theorem find?_of_filter_single {α : Type} (p : α → Bool) (l : List α) (a : α)
    (h : l.filter p = [a]) : l.find? p = some a := by
  induction l with
  | nil => simp at h
  | cons u rest ih =>
    rw [List.filter_cons] at h
    rw [find?_cons_eq]
    cases hu : p u with
    | false =>
      rw [hu] at h
      simp only [Bool.false_eq_true, if_false] at h
      rw [if_neg (by simp)]
      exact ih h
    | true =>
      rw [hu] at h
      simp only [if_true] at h
      have := List.cons_eq_cons.mp h
      rw [if_pos rfl, this.1]

/-- Upserting an id that occurs exactly once replaces that occurrence and
appends nothing. -/
theorem upsert_filter_single (c : List Ticket) (p : TicketPatch) (n : Nat) (r : Ticket)
    (h : c.filter (fun u => u.id == p.id) = [r]) :
    (upsertTicketLocalList c p n).filter (fun u => u.id == p.id) = [mergedTicket r p n]
    ∧ (upsertTicketLocalList c p n).length = c.length := by
  induction c with
  | nil => simp at h
  | cons u rest ih =>
    rw [List.filter_cons] at h
    cases hu : u.id == p.id with
    | true =>
      rw [hu] at h
      simp only [if_true] at h
      have hur := List.cons_eq_cons.mp h
      rw [upsertTicketLocalList_cons, if_pos hu]
      constructor
      · rw [List.filter_cons, if_pos (by simp [mergedTicket_id]), hur.2, hur.1]
      · simp
    | false =>
      rw [hu] at h
      simp only [Bool.false_eq_true, if_false] at h
      obtain ⟨ihf, ihl⟩ := ih h
      rw [upsertTicketLocalList_cons, if_neg (by simp [hu])]
      constructor
      · rw [List.filter_cons, if_neg (by simp [hu]), ihf]
      · simp [ihl]

/-- Merging the full record read back over an old record with the same
`completedByStudent` key yields the record with only `updatedAt` restamped. -/
theorem merge_fullPatch (old r : Ticket) (n : Nat)
    (hc : old.completedByStudent = r.completedByStudent) :
    mergedTicket old (fullPatch r) n = { r with updatedAt := some n } := by
  have hcbs : ((fullPatch r).completedByStudent).getD old.completedByStudent =
      r.completedByStudent := by
    cases hv : r.completedByStudent
    · simp [fullPatch, hv, hc]
    · simp [fullPatch, hv]
  simp [mergedTicket, fullPatch] at hcbs ⊢
  exact hcbs

/-- C4: applying `upsertTicket` twice with the same full record `r`, already
stored exactly once, leaves exactly one record with `r`'s id (nothing is
appended), with `updatedAt` restamped on each application and every other
field equal to the single application's result. -/
theorem C4_upsert_idempotent (c : List Ticket) (r : Ticket) (now1 now2 : Nat)
    (h : c.filter (fun u => u.id == r.id) = [r]) :
    ((upsertTicketLocalList c (fullPatch r) now1).filter (fun u => u.id == r.id) =
        [{ r with updatedAt := some now1 }])
    ∧ ((upsertTicketLocalList (upsertTicketLocalList c (fullPatch r) now1)
        (fullPatch r) now2).filter (fun u => u.id == r.id) =
        [{ r with updatedAt := some now2 }])
    ∧ ((upsertTicketLocalList (upsertTicketLocalList c (fullPatch r) now1)
        (fullPatch r) now2).length = c.length)
    ∧ (getTicketById (upsertTicketLocalList c (fullPatch r) now1) r.id =
        some { r with updatedAt := some now1 })
    ∧ (getTicketById (upsertTicketLocalList (upsertTicketLocalList c (fullPatch r) now1)
        (fullPatch r) now2) r.id = some { r with updatedAt := some now2 }) := by
  obtain ⟨hf1, hl1⟩ := upsert_filter_single c (fullPatch r) now1 r h
  rw [merge_fullPatch r r now1 rfl] at hf1
  obtain ⟨hf2, hl2⟩ :=
    upsert_filter_single (upsertTicketLocalList c (fullPatch r) now1) (fullPatch r) now2
      { r with updatedAt := some now1 } hf1
  rw [merge_fullPatch { r with updatedAt := some now1 } r now2 (by simp)] at hf2
  refine ⟨hf1, hf2, hl2.trans hl1, ?_, ?_⟩
  · exact find?_of_filter_single _ _ _ hf1
  · exact find?_of_filter_single _ _ _ hf2

/-- Witness for C4 on a concrete one-element store. -/
theorem C4_upsert_idempotent_witness :
    (getTicketById (upsertTicketLocalList (upsertTicketLocalList
        [⟨"t1", "s1", "4S", "AB", "math", "question", ["tb"], "why", [], [], [], "", "submitted",
          some 1, some 1, none, none⟩]
        (fullPatch ⟨"t1", "s1", "4S", "AB", "math", "question", ["tb"], "why", [], [], [], "",
          "submitted", some 1, some 1, none, none⟩) 7)
        (fullPatch ⟨"t1", "s1", "4S", "AB", "math", "question", ["tb"], "why", [], [], [], "",
          "submitted", some 1, some 1, none, none⟩) 9) "t1" =
      some ⟨"t1", "s1", "4S", "AB", "math", "question", ["tb"], "why", [], [], [], "",
        "submitted", some 1, some 9, none, none⟩)
    ∧ (upsertTicketLocalList (upsertTicketLocalList
        [⟨"t1", "s1", "4S", "AB", "math", "question", ["tb"], "why", [], [], [], "", "submitted",
          some 1, some 1, none, none⟩]
        (fullPatch ⟨"t1", "s1", "4S", "AB", "math", "question", ["tb"], "why", [], [], [], "",
          "submitted", some 1, some 1, none, none⟩) 7)
        (fullPatch ⟨"t1", "s1", "4S", "AB", "math", "question", ["tb"], "why", [], [], [], "",
          "submitted", some 1, some 1, none, none⟩) 9).length = 1 := by
  have h := C4_upsert_idempotent
    [⟨"t1", "s1", "4S", "AB", "math", "question", ["tb"], "why", [], [], [], "", "submitted",
      some 1, some 1, none, none⟩]
    ⟨"t1", "s1", "4S", "AB", "math", "question", ["tb"], "why", [], [], [], "", "submitted",
      some 1, some 1, none, none⟩ 7 9 (by decide)
  exact ⟨h.2.2.2.2, h.2.2.1⟩

/-! ## Lookup characterizations -/

/-- The `find?` returns the first element satisfying the predicate. -/
theorem find?_first {α : Type} (p : α → Bool) (l : List α) (a : α)
    (h : l.find? p = some a) :
    p a = true ∧ ∃ pre post, l = pre ++ a :: post ∧ ∀ x ∈ pre, p x = false := by
  induction l with
  | nil => simp at h
  | cons u rest ih =>
    rw [find?_cons_eq] at h
    cases hu : p u with
    | true =>
      rw [hu, if_pos rfl] at h
      obtain rfl := Option.some.inj h
      exact ⟨hu, [], rest, rfl, by simp⟩
    | false =>
      rw [hu, if_neg (by simp)] at h
      obtain ⟨hpa, pre, post, rfl, hpre⟩ := ih h
      refine ⟨hpa, u :: pre, post, rfl, fun x hx => ?_⟩
      rcases List.mem_cons.mp hx with rfl | hx'
      · exact hu
      · exact hpre x hx'

/-- C10: `getTicketById` and `getStudentById` are total on misses and return
null (`none`) exactly then: for an id borne by no record they return `none`;
when they return a record it bears the queried id and is the first such
record in collection order. -/
theorem C10_lookup_by_id :
    (∀ (cache : List Ticket) (id : String), (∀ t ∈ cache, t.id ≠ id) →
        getTicketById cache id = none)
    ∧ (∀ (cache : List Ticket) (id : String) (t : Ticket), getTicketById cache id = some t →
        t.id = id ∧ ∃ pre post, cache = pre ++ t :: post ∧ ∀ x ∈ pre, x.id ≠ id)
    ∧ (∀ (cache : List Student) (id : String), (∀ s ∈ cache, s.id ≠ id) →
        getStudentById cache id = none)
    ∧ (∀ (cache : List Student) (id : String) (s : Student), getStudentById cache id = some s →
        s.id = id ∧ ∃ pre post, cache = pre ++ s :: post ∧ ∀ x ∈ pre, x.id ≠ id) := by
  refine ⟨?_, ?_, ?_, ?_⟩
  · intro cache id h
    unfold getTicketById
    exact List.find?_eq_none.mpr (fun t ht => by simp [h t ht])
  · intro cache id t h
    obtain ⟨hp, pre, post, rfl, hpre⟩ := find?_first _ _ _ h
    exact ⟨by simpa using hp, pre, post, rfl, fun x hx => by simpa using hpre x hx⟩
  · intro cache id h
    unfold getStudentById
    exact List.find?_eq_none.mpr (fun s hs => by simp [h s hs])
  · intro cache id s h
    obtain ⟨hp, pre, post, rfl, hpre⟩ := find?_first _ _ _ h
    exact ⟨by simpa using hp, pre, post, rfl, fun x hx => by simpa using hpre x hx⟩

/-- Witness for C10 on a concrete two-element cache. -/
theorem C10_lookup_by_id_witness :
    getTicketById
      [⟨"t1", "s1", "4S", "AB", "m", "question", [], "", [], [], [], "", "submitted",
        none, none, none, none⟩] "zz" = none
    ∧ getStudentById [⟨"s1", "4S", "AB", "0101", none, none⟩, ⟨"s2", "4S", "CD", "0202", none,
        none⟩] "s2" = some ⟨"s2", "4S", "CD", "0202", none, none⟩
    ∧ (⟨"s2", "4S", "CD", "0202", none, none⟩ : Student).id = "s2" := by
  refine ⟨C10_lookup_by_id.1 _ "zz" (by decide), by decide, ?_⟩
  exact (C10_lookup_by_id.2.2.2
    [⟨"s1", "4S", "AB", "0101", none, none⟩, ⟨"s2", "4S", "CD", "0202", none, none⟩]
    "s2" ⟨"s2", "4S", "CD", "0202", none, none⟩ (by decide)).1

/-- The boolean match test of `findStudent`, read as `studentMatches`. -/
theorem findStudent_pred_iff (s : Student) (c i b : String) :
    ((s.className == c && toUpperCase s.initials == toUpperCase i && s.birthday == b) = true) ↔
      studentMatches s c i b := by
  simp [studentMatches, Bool.and_eq_true, and_assoc]

/-- C5: `findStudent` returns null when no stored student matches the triple
(class exactly, initials up to case, birthday exactly); a hit is the first
match in collection order; and the result depends on the initials only
through their uppercasing, while class and birthday are compared exactly. -/
theorem C5_findStudent :
    (∀ (cache : List Student) (c i b : String),
        (∀ s ∈ cache, ¬ studentMatches s c i b) → findStudent cache c i b = none)
    ∧ (∀ (cache : List Student) (c i b : String) (s : Student),
        findStudent cache c i b = some s →
        studentMatches s c i b ∧
          ∃ pre post, cache = pre ++ s :: post ∧ ∀ x ∈ pre, ¬ studentMatches x c i b)
    ∧ (∀ (cache : List Student) (c i i2 b : String), toUpperCase i = toUpperCase i2 →
        findStudent cache c i b = findStudent cache c i2 b) := by
  refine ⟨?_, ?_, ?_⟩
  · intro cache c i b h
    unfold findStudent
    refine List.find?_eq_none.mpr (fun s hs hp => ?_)
    exact h s hs ((findStudent_pred_iff s c i b).mp hp)
  · intro cache c i b s h
    obtain ⟨hp, pre, post, rfl, hpre⟩ := find?_first _ _ _ h
    refine ⟨(findStudent_pred_iff s c i b).mp hp, pre, post, rfl, fun x hx hm => ?_⟩
    have := (findStudent_pred_iff x c i b).mpr hm
    rw [hpre x hx] at this
    exact Bool.false_ne_true this
  · intro cache c i i2 b h
    unfold findStudent
    rw [h]

/-- Witness for C5: lower-case initials log in against an upper-case record;
a wrong birthday misses. -/
theorem C5_findStudent_witness :
    findStudent [⟨"5S", "CD", "0202", "x", none, none⟩] "5S" "cd" "x" =
      findStudent [⟨"5S", "CD", "0202", "x", none, none⟩] "5S" "CD" "x"
    ∧ findStudent [⟨"s1", "5S", "CD", "0202", none, none⟩] "5S" "cd" "9999" = none := by
  constructor
  · exact C5_findStudent.2.2 _ "5S" "cd" "CD" "x" (by decide)
  · refine C5_findStudent.1 _ "5S" "cd" "9999" ?_
    intro s hs hm
    rcases List.mem_singleton.mp hs with rfl
    exact absurd hm.2.2 (by decide)

/-! ## saveStudent -/

theorem upsertStudentSync_local (fails : Bool) (st : SyncState) (p : StudentPatch)
    (freshId : String) :
    upsertStudentSync false fails st p freshId =
      (.ok (ensureStudentId st.studentsCache p freshId),
       { st with
          studentsCache :=
            upsertStudentLocalList st.studentsCache (ensureStudentId st.studentsCache p freshId),
          localStudents := some (.jv (encodeStudents
            (upsertStudentLocalList st.studentsCache
              (ensureStudentId st.studentsCache p freshId)))) }) := rfl

theorem upsertStudentSync_remoteFail (st : SyncState) (p : StudentPatch) (freshId : String) :
    upsertStudentSync true true st p freshId =
      (.error (), pushToast st "保存に失敗しました") := rfl

theorem upsertStudentSync_remoteOk (st : SyncState) (p : StudentPatch) (freshId : String) :
    upsertStudentSync true false st p freshId =
      (.ok (ensureStudentId st.studentsCache p freshId),
       { st with remoteStudents :=
          (setAssoc st.remoteStudents (ensureStudentId st.studentsCache p freshId).id
            (encodeStudentPatch (ensureStudentId st.studentsCache p freshId))) }) := rfl

/-- C6: registering or editing a student with a (class, initials up to case)
pair held by a stored student with a different id is rejected as a duplicate,
and every rejection (validation or duplicate or failed remote set) leaves the
student and ticket collections and both persisted stores unchanged; saving
the same pair while editing the record that holds it (same id) passes the
duplicate check and is accepted. -/
theorem C6_saveStudent (cfg fails : Bool) (st : SyncState) (id cRaw iRaw bRaw freshId : String) :
    ((cRaw ≠ "") → (toUpperCase (jsTrim iRaw) ≠ "") → isBirthday (jsTrim bRaw) = true →
      (∃ s ∈ st.studentsCache, s.className = cRaw ∧
          toUpperCase s.initials = toUpperCase (jsTrim iRaw) ∧ s.id ≠ id) →
      (saveStudent cfg fails st id cRaw iRaw bRaw freshId).1 = some .duplicate ∧
      (saveStudent cfg fails st id cRaw iRaw bRaw freshId).2.studentsCache = st.studentsCache ∧
      (saveStudent cfg fails st id cRaw iRaw bRaw freshId).2.ticketsCache = st.ticketsCache ∧
      (saveStudent cfg fails st id cRaw iRaw bRaw freshId).2.localStudents = st.localStudents ∧
      (saveStudent cfg fails st id cRaw iRaw bRaw freshId).2.localTickets = st.localTickets)
    ∧ ((saveStudent cfg fails st id cRaw iRaw bRaw freshId).1.isSome →
      (saveStudent cfg fails st id cRaw iRaw bRaw freshId).2.studentsCache = st.studentsCache ∧
      (saveStudent cfg fails st id cRaw iRaw bRaw freshId).2.ticketsCache = st.ticketsCache ∧
      (saveStudent cfg fails st id cRaw iRaw bRaw freshId).2.localStudents = st.localStudents ∧
      (saveStudent cfg fails st id cRaw iRaw bRaw freshId).2.localTickets = st.localTickets ∧
      (saveStudent cfg fails st id cRaw iRaw bRaw freshId).2.remoteStudents =
        st.remoteStudents ∧
      (saveStudent cfg fails st id cRaw iRaw bRaw freshId).2.remoteTickets = st.remoteTickets)
    ∧ (cfg = false → (cRaw ≠ "") → (toUpperCase (jsTrim iRaw) ≠ "") →
      isBirthday (jsTrim bRaw) = true →
      (∀ s ∈ st.studentsCache, s.className = cRaw →
        toUpperCase s.initials = toUpperCase (jsTrim iRaw) → s.id = id) →
      (saveStudent cfg fails st id cRaw iRaw bRaw freshId).1 = none) := by
  refine ⟨?_, ?_, ?_⟩
  · intro hc hi hb hdup
    have h1 : (cRaw == "") = false := by simpa using hc
    have h2 : (toUpperCase (jsTrim iRaw) == "") = false := by simpa using hi
    have h3 : (!isBirthday (jsTrim bRaw)) = false := by simp [hb]
    obtain ⟨s, hmem, hcs, his, hid⟩ := hdup
    have hsome : (st.studentsCache.find? (fun s =>
        s.className == cRaw && toUpperCase s.initials == toUpperCase (jsTrim iRaw) &&
          s.id != id)).isSome :=
      List.find?_isSome.mpr ⟨s, hmem, by simp [hcs, his, hid]⟩
    obtain ⟨d, hd⟩ := Option.isSome_iff_exists.mp hsome
    have hres : saveStudent cfg fails st id cRaw iRaw bRaw freshId =
        (some .duplicate, pushToast st "同じクラス・イニシャルの生徒が既に登録されています") := by
      simp [saveStudent, h1, h2, h3, hd, pushToast]
    rw [hres]
    exact ⟨rfl, rfl, rfl, rfl, rfl⟩
  · intro hsome
    by_cases h1 : (cRaw == "") = true
    · have hres : saveStudent cfg fails st id cRaw iRaw bRaw freshId =
          (some .noClass, pushToast st "クラスを選択してください") := by
        simp [saveStudent, h1, pushToast]
      rw [hres]
      exact ⟨rfl, rfl, rfl, rfl, rfl, rfl⟩
    · have h1' : (cRaw == "") = false := by simpa using h1
      by_cases h2 : (toUpperCase (jsTrim iRaw) == "") = true
      · have hres : saveStudent cfg fails st id cRaw iRaw bRaw freshId =
            (some .noInitials, pushToast st "イニシャルを入力してください") := by
          simp [saveStudent, h1', h2, pushToast]
        rw [hres]
        exact ⟨rfl, rfl, rfl, rfl, rfl, rfl⟩
      · have h2' : (toUpperCase (jsTrim iRaw) == "") = false := by simpa using h2
        by_cases h3 : (!isBirthday (jsTrim bRaw)) = true
        · have hres : saveStudent cfg fails st id cRaw iRaw bRaw freshId =
              (some .badBirthday, pushToast st "誕生日は4桁の数字で入力してください") := by
            simp [saveStudent, h1', h2', h3, pushToast]
          rw [hres]
          exact ⟨rfl, rfl, rfl, rfl, rfl, rfl⟩
        · have h3' : (!isBirthday (jsTrim bRaw)) = false := by simpa using h3
          cases hfind : st.studentsCache.find? (fun s =>
              s.className == cRaw && toUpperCase s.initials == toUpperCase (jsTrim iRaw) &&
                s.id != id) with
          | some d =>
            have hres : saveStudent cfg fails st id cRaw iRaw bRaw freshId =
                (some .duplicate,
                  pushToast st "同じクラス・イニシャルの生徒が既に登録されています") := by
              simp [saveStudent, h1', h2', h3', hfind, pushToast]
            rw [hres]
            exact ⟨rfl, rfl, rfl, rfl, rfl, rfl⟩
          | none =>
            cases cfg with
            | false =>
              exfalso
              have hres : (saveStudent false fails st id cRaw iRaw bRaw freshId).1 = none := by
                simp [saveStudent, h1', h2', h3', hfind, upsertStudentSync_local]
              rw [hres] at hsome
              simp at hsome
            | true =>
              cases fails with
              | false =>
                exfalso
                have hres : (saveStudent true false st id cRaw iRaw bRaw freshId).1 = none := by
                  simp [saveStudent, h1', h2', h3', hfind, upsertStudentSync_remoteOk]
                rw [hres] at hsome
                simp at hsome
              | true =>
                have hres : saveStudent true true st id cRaw iRaw bRaw freshId =
                    (some .setFailed, pushToast st "保存に失敗しました") := by
                  simp [saveStudent, h1', h2', h3', hfind, upsertStudentSync_remoteFail,
                    pushToast]
                rw [hres]
                exact ⟨rfl, rfl, rfl, rfl, rfl, rfl⟩
  · intro hcfg hc hi hb hsame
    subst hcfg
    have h1 : (cRaw == "") = false := by simpa using hc
    have h2 : (toUpperCase (jsTrim iRaw) == "") = false := by simpa using hi
    have h3 : (!isBirthday (jsTrim bRaw)) = false := by simp [hb]
    have hnone : st.studentsCache.find? (fun s =>
        s.className == cRaw && toUpperCase s.initials == toUpperCase (jsTrim iRaw) &&
          s.id != id) = none := by
      refine List.find?_eq_none.mpr (fun x hx hp => ?_)
      simp only [Bool.and_eq_true, beq_iff_eq, bne_iff_ne] at hp
      exact hp.2 (hsame x hx hp.1.1 hp.1.2)
    simp [saveStudent, h1, h2, h3, hnone, upsertStudentSync_local]

/-- Witness for C6: with one stored student 4S/AB, adding a new `4S`/`ab`
student is rejected as a duplicate with the collection unchanged, and saving
the same pair on the stored record's own id is accepted. -/
theorem C6_saveStudent_witness :
    ((saveStudent false false
        ⟨[], [⟨"sid1", "4S", "AB", "0101", none, none⟩], none, none, [], [], []⟩
        "" "4S" "ab" "0101" "f2").1 = some .duplicate)
    ∧ ((saveStudent false false
        ⟨[], [⟨"sid1", "4S", "AB", "0101", none, none⟩], none, none, [], [], []⟩
        "" "4S" "ab" "0101" "f2").2.studentsCache = [⟨"sid1", "4S", "AB", "0101", none, none⟩])
    ∧ ((saveStudent false false
        ⟨[], [⟨"sid1", "4S", "AB", "0101", none, none⟩], none, none, [], [], []⟩
        "sid1" "4S" "ab" "0101" "f2").1 = none) := by
  have h := C6_saveStudent false false
    ⟨[], [⟨"sid1", "4S", "AB", "0101", none, none⟩], none, none, [], [], []⟩
    "" "4S" "ab" "0101" "f2"
  have ha := h.1 (by decide) (by decide) (by decide) (by decide)
  refine ⟨ha.1, ha.2.1, ?_⟩
  exact (C6_saveStudent false false
    ⟨[], [⟨"sid1", "4S", "AB", "0101", none, none⟩], none, none, [], [], []⟩
    "sid1" "4S" "ab" "0101" "f2").2.2 rfl (by decide) (by decide) (by decide) (by decide)

/-! ## Remote write failure -/

theorem upsertTicketSync_remoteFail (st : SyncState) (p : TicketPatch) (now : Nat) :
    upsertTicketSync true true st p now =
      (.error (), pushToast st "保存に失敗しました") := rfl

/-- C7: when the remote store is configured and the remote `set` rejects,
both upserts surface a user-visible toast, re-throw the error to the caller,
and leave the in-memory caches, the local store, and the remote store
untouched. -/
theorem C7_remote_write_failure (st : SyncState) (p : TicketPatch) (now : Nat)
    (q : StudentPatch) (freshId : String) :
    ((upsertTicketSync true true st p now).1 = .error ())
    ∧ ((upsertTicketSync true true st p now).2.ticketsCache = st.ticketsCache)
    ∧ ((upsertTicketSync true true st p now).2.localTickets = st.localTickets)
    ∧ ((upsertTicketSync true true st p now).2.remoteTickets = st.remoteTickets)
    ∧ ((upsertTicketSync true true st p now).2.toasts = st.toasts ++ ["保存に失敗しました"])
    ∧ ((upsertStudentSync true true st q freshId).1 = .error ())
    ∧ ((upsertStudentSync true true st q freshId).2.studentsCache = st.studentsCache)
    ∧ ((upsertStudentSync true true st q freshId).2.localStudents = st.localStudents)
    ∧ ((upsertStudentSync true true st q freshId).2.remoteStudents = st.remoteStudents)
    ∧ ((upsertStudentSync true true st q freshId).2.toasts =
        st.toasts ++ ["保存に失敗しました"]) :=
  ⟨rfl, rfl, rfl, rfl, rfl, rfl, rfl, rfl, rfl, rfl⟩

/-! ## The upsert contract (C3) -/

theorem upsertStudentLocalList_nil (p : StudentPatch) :
    upsertStudentLocalList [] p = [freshStudent p] := rfl

theorem upsertStudentLocalList_cons (s : Student) (rest : List Student) (p : StudentPatch) :
    upsertStudentLocalList (s :: rest) p =
      if s.id == p.id then mergedStudent s p :: rest
      else s :: upsertStudentLocalList rest p := rfl

theorem mergedStudent_id (old : Student) (p : StudentPatch) :
    (mergedStudent old p).id = p.id := rfl

theorem getStudentById_cons (s : Student) (rest : List Student) (x : String) :
    getStudentById (s :: rest) x = if s.id == x then some s else getStudentById rest x := by
  unfold getStudentById
  rw [find?_cons_eq]

/-- The stored record after a found student upsert is the shallow merge. -/
theorem getStudentById_upsert_found (cache : List Student) (p : StudentPatch) (old : Student)
    (h : cache.find? (fun u => u.id == p.id) = some old) :
    getStudentById (upsertStudentLocalList cache p) p.id = some (mergedStudent old p) := by
  induction cache with
  | nil => simp at h
  | cons u rest ih =>
    rw [find?_cons_eq] at h
    cases hu : u.id == p.id with
    | true =>
      rw [hu, if_pos rfl] at h
      obtain rfl := Option.some.inj h
      rw [upsertStudentLocalList_cons, if_pos hu, getStudentById_cons,
        if_pos (by simp [mergedStudent_id])]
    | false =>
      rw [hu, if_neg (by simp)] at h
      rw [upsertStudentLocalList_cons, if_neg (by simp [hu]), getStudentById_cons,
        if_neg (by simp [hu])]
      exact ih h

/-- When the id is absent, the ticket upsert appends the fresh record. -/
theorem upsertTicketLocalList_not_found (cache : List Ticket) (p : TicketPatch) (n : Nat)
    (h : cache.find? (fun u => u.id == p.id) = none) :
    upsertTicketLocalList cache p n = cache ++ [freshTicket p n] := by
  induction cache with
  | nil => rfl
  | cons u rest ih =>
    rw [find?_cons_eq] at h
    cases hu : u.id == p.id with
    | true =>
      rw [hu, if_pos rfl] at h
      exact absurd h (by simp)
    | false =>
      rw [hu, if_neg (by simp)] at h
      rw [upsertTicketLocalList_cons, if_neg (by simp [hu]), ih h, List.cons_append]

/-- C3 (amended): `upsertTicket` satisfies the stated contract — on a hit the
result is the existing record shallow-merged with the patch and stamped
`updatedAt = now`, on a miss the patch is stamped with both `createdAt` and
`updatedAt` and appended, and the merged entity is both stored and returned.
`upsertStudent` shallow-merges the existing record in the local path but
stamps no timestamp (`createdAt`/`updatedAt` pass through the merge
unchanged) and returns its input object (with a generated id when the input
id was empty and unmatched), not the merged record. -/
theorem C3_upsert_contract :
    (∀ (cache : List Ticket) (p : TicketPatch) (now : Nat) (t : Ticket),
        cache.find? (fun u => u.id == p.id) = some t →
        upsertTicketApplied cache p now = mergedTicket t p now ∧
        (mergedTicket t p now).updatedAt = some now ∧
        getTicketById (upsertTicketLocalList cache p now) p.id = some (mergedTicket t p now))
    ∧ (∀ (cache : List Ticket) (p : TicketPatch) (now : Nat),
        cache.find? (fun u => u.id == p.id) = none →
        upsertTicketApplied cache p now = freshTicket p now ∧
        (freshTicket p now).createdAt = some now ∧
        (freshTicket p now).updatedAt = some now ∧
        upsertTicketLocalList cache p now = cache ++ [freshTicket p now])
    ∧ (∀ (st : SyncState) (p : TicketPatch) (now : Nat),
        (upsertTicketSync false false st p now).1 =
          .ok (upsertTicketApplied st.ticketsCache p now))
    ∧ (∀ (cache : List Student) (p : StudentPatch) (old : Student),
        cache.find? (fun u => u.id == p.id) = some old →
        getStudentById (upsertStudentLocalList cache p) p.id = some (mergedStudent old p) ∧
        (p.createdAt = none → (mergedStudent old p).createdAt = old.createdAt) ∧
        (p.updatedAt = none → (mergedStudent old p).updatedAt = old.updatedAt))
    ∧ (∀ (st : SyncState) (p : StudentPatch) (freshId : String),
        (upsertStudentSync false false st p freshId).1 =
          .ok (ensureStudentId st.studentsCache p freshId)) := by
  refine ⟨?_, ?_, ?_, ?_, ?_⟩
  · intro cache p now t h
    refine ⟨upsertTicketApplied_of_find cache p now t h, rfl, ?_⟩
    rw [getTicketById_upsert, if_pos rfl, upsertTicketApplied_of_find cache p now t h]
  · intro cache p now h
    refine ⟨?_, rfl, rfl, upsertTicketLocalList_not_found cache p now h⟩
    unfold upsertTicketApplied
    rw [h]
  · intro st p now
    rfl
  · intro cache p old h
    exact ⟨getStudentById_upsert_found cache p old h,
      fun hc => by simp [mergedStudent, hc],
      fun hu => by simp [mergedStudent, hu]⟩
  · intro st p freshId
    rfl

/-- C3 counterexample: a fresh `upsertStudent` (local mode) stores the record
with no `createdAt` and no `updatedAt` stamp — both keys stay absent, so the
stored record is not stamped with the time of the call — and the function
returns the raw input patch rather than a merged record. -/
theorem C3_counterexample :
    ((upsertStudentSync false false ⟨[], [], none, none, [], [], []⟩
        { id := "s1", className := some "5S", initials := some "CD",
          birthday := some "0202" } "f1").2.studentsCache.map Student.createdAt = [none])
    ∧ ((upsertStudentSync false false ⟨[], [], none, none, [], [], []⟩
        { id := "s1", className := some "5S", initials := some "CD",
          birthday := some "0202" } "f1").2.studentsCache.map Student.updatedAt = [none])
    ∧ ((upsertStudentSync false false ⟨[], [], none, none, [], [], []⟩
        { id := "s1", className := some "5S", initials := some "CD",
          birthday := some "0202" } "f1").1 =
        .ok { id := "s1", className := some "5S", initials := some "CD",
              birthday := some "0202" }) :=
  ⟨rfl, rfl, rfl⟩

/-- Witness for the amended C3: a partial patch over a stored ticket merges
and the merged record is both returned and stored under the patch's id. -/
theorem C3_upsert_contract_witness :
    (upsertTicketApplied
      [⟨"t1", "s1", "4S", "AB", "math", "question", ["tb"], "why", [], [], [], "", "submitted",
        some 1, some 1, none, none⟩]
      { id := "t1", teacherMemo := some "hello" } 7 =
      mergedTicket
        ⟨"t1", "s1", "4S", "AB", "math", "question", ["tb"], "why", [], [], [], "", "submitted",
          some 1, some 1, none, none⟩
        { id := "t1", teacherMemo := some "hello" } 7)
    ∧ (getTicketById (upsertTicketLocalList
        [⟨"t1", "s1", "4S", "AB", "math", "question", ["tb"], "why", [], [], [], "", "submitted",
          some 1, some 1, none, none⟩]
        { id := "t1", teacherMemo := some "hello" } 7) "t1" =
      some (mergedTicket
        ⟨"t1", "s1", "4S", "AB", "math", "question", ["tb"], "why", [], [], [], "", "submitted",
          some 1, some 1, none, none⟩
        { id := "t1", teacherMemo := some "hello" } 7)) := by
  have h := C3_upsert_contract.1
    [⟨"t1", "s1", "4S", "AB", "math", "question", ["tb"], "why", [], [], [], "", "submitted",
      some 1, some 1, none, none⟩]
    { id := "t1", teacherMemo := some "hello" } 7
    ⟨"t1", "s1", "4S", "AB", "math", "question", ["tb"], "why", [], [], [], "", "submitted",
      some 1, some 1, none, none⟩ rfl
  exact ⟨h.1, h.2.2⟩

/-! ## Local persistence round trip -/

theorem decodeOptNat_encodeOptNat (o : Option Nat) :
    decodeOptNat (encodeOptNat o) = some o := by
  cases o <;> rfl

theorem decodeOptBool_encodeOptBool (o : Option Bool) :
    decodeOptBool (encodeOptBool o) = some o := by
  cases o <;> rfl

theorem decodeStrs_map_str (l : List String) : decodeStrs (l.map Jval.str) = some l := by
  induction l with
  | nil => rfl
  | cons s rest ih => simp [decodeStrs, ih]

theorem decodeStrList_encodeStrList (l : List String) :
    decodeStrList (encodeStrList l) = some l := by
  simp [decodeStrList, encodeStrList, decodeStrs_map_str]

theorem decTickIdent_enc (id sid cn ini sub pur : String) (rest : List (String × Jval)) :
    decTickIdent (("id", .str id) :: ("studentId", .str sid) :: ("className", .str cn) ::
      ("initials", .str ini) :: ("subject", .str sub) :: ("purpose", .str pur) :: rest) =
      some ((id, sid, cn, ini, sub, pur), rest) := by
  simp [decTickIdent, fieldStr]

theorem decTickContent_enc (cm : List String) (qr : String) (qi : List String)
    (rest : List (String × Jval)) :
    decTickContent (("checkedMaterials", encodeStrList cm) :: ("questionReason", .str qr) ::
      ("questionImages", encodeStrList qi) :: rest) = some ((cm, qr, qi), rest) := by
  simp [decTickContent, fieldStr, fieldVal, decodeStrList_encodeStrList]

theorem decTickTeacher_enc (ai mi : List String) (tm stt : String)
    (rest : List (String × Jval)) :
    decTickTeacher (("answerImages", encodeStrList ai) :: ("myAnswerImages", encodeStrList mi) ::
      ("teacherMemo", .str tm) :: ("status", .str stt) :: rest) =
      some ((ai, mi, tm, stt), rest) := by
  simp [decTickTeacher, fieldStr, fieldVal, decodeStrList_encodeStrList]

theorem decTickStamps_enc (ca ua da : Option Nat) (cbs : Option Bool) :
    decTickStamps [("createdAt", encodeOptNat ca), ("updatedAt", encodeOptNat ua),
      ("doneAt", encodeOptNat da), ("completedByStudent", encodeOptBool cbs)] =
      some (ca, ua, da, cbs) := by
  simp [decTickStamps, fieldVal, decodeOptNat_encodeOptNat, decodeOptBool_encodeOptBool]

theorem decodeTicket_encodeTicket (t : Ticket) : decodeTicket (encodeTicket t) = some t := by
  simp [decodeTicket, encodeTicket, decTickIdent_enc, decTickContent_enc,
    decTickTeacher_enc, decTickStamps_enc]

theorem decodeTicketList_map (l : List Ticket) :
    decodeTicketList (l.map encodeTicket) = some l := by
  induction l with
  | nil => rfl
  | cons t rest ih => simp [decodeTicketList, decodeTicket_encodeTicket, ih]

theorem decodeTickets_encodeTickets (l : List Ticket) :
    decodeTickets (encodeTickets l) = some l := by
  simp [decodeTickets, encodeTickets, decodeTicketList_map]

theorem decStudIdent_enc (id cn ini bd : String) (rest : List (String × Jval)) :
    decStudIdent (("id", .str id) :: ("className", .str cn) :: ("initials", .str ini) ::
      ("birthday", .str bd) :: rest) = some ((id, cn, ini, bd), rest) := by
  simp [decStudIdent, fieldStr]

theorem decStudStamps_enc (ca ua : Option Nat) :
    decStudStamps [("createdAt", encodeOptNat ca), ("updatedAt", encodeOptNat ua)] =
      some (ca, ua) := by
  simp [decStudStamps, fieldVal, decodeOptNat_encodeOptNat]

theorem decodeStudent_encodeStudent (s : Student) :
    decodeStudent (encodeStudent s) = some s := by
  simp [decodeStudent, encodeStudent, decStudIdent_enc, decStudStamps_enc]

theorem decodeStudentList_map (l : List Student) :
    decodeStudentList (l.map encodeStudent) = some l := by
  induction l with
  | nil => rfl
  | cons s rest ih => simp [decodeStudentList, decodeStudent_encodeStudent, ih]

theorem decodeStudents_encodeStudents (l : List Student) :
    decodeStudents (encodeStudents l) = some l := by
  simp [decodeStudents, encodeStudents, decodeStudentList_map]

/-- C8 (amended): a collection serialized to the local store reloads as
exactly the value written, element order preserved, and in particular the
collection the local write path persists decodes back to the cache it wrote;
an absent key or an unparseable blob loads as the empty collection.  (A blob
that parses but has the wrong shape is returned as-is, without validation —
see the counterexample.) -/
theorem C8_local_round_trip :
    (∀ l : List Ticket,
        loadTicketsFromLocal (some (.jv (encodeTickets l))) = encodeTickets l ∧
        decodeTickets (encodeTickets l) = some l)
    ∧ (∀ l : List Student,
        loadStudentsFromLocal (some (.jv (encodeStudents l))) = encodeStudents l ∧
        decodeStudents (encodeStudents l) = some l)
    ∧ (loadTicketsFromLocal none = .arr [] ∧ loadTicketsFromLocal (some .garbage) = .arr []
       ∧ loadStudentsFromLocal none = .arr []
       ∧ loadStudentsFromLocal (some .garbage) = .arr [])
    ∧ (∀ (st : SyncState) (p : TicketPatch) (now : Nat),
        decodeTickets (loadTicketsFromLocal
          ((upsertTicketSync false false st p now).2.localTickets)) =
          some ((upsertTicketSync false false st p now).2.ticketsCache))
    ∧ (∀ (st : SyncState) (q : StudentPatch) (freshId : String),
        decodeStudents (loadStudentsFromLocal
          ((upsertStudentSync false false st q freshId).2.localStudents)) =
          some ((upsertStudentSync false false st q freshId).2.studentsCache)) := by
  refine ⟨?_, ?_, ⟨rfl, rfl, rfl, rfl⟩, ?_, ?_⟩
  · exact fun l => ⟨rfl, decodeTickets_encodeTickets l⟩
  · exact fun l => ⟨rfl, decodeStudents_encodeStudents l⟩
  · intro st p now
    exact decodeTickets_encodeTickets _
  · intro st q freshId
    exact decodeStudents_encodeStudents _

/-- C8 counterexample: a corrupt blob that still parses (here the JSON string
`"x"`) is NOT treated as the empty collection: `loadTicketsFromLocal` returns
it verbatim, and it does not decode to any ticket collection, let alone the
empty one.  Only an absent key or a parse failure yields `[]`. -/
theorem C8_corrupt_blob_counterexample :
    (loadTicketsFromLocal (some (.jv (.str "x"))) = .str "x")
    ∧ (decodeTickets (loadTicketsFromLocal (some (.jv (.str "x")))) = none)
    ∧ ¬ (decodeTickets (loadTicketsFromLocal (some (.jv (.str "x")))) =
        some ([] : List Ticket)) := by
  refine ⟨rfl, rfl, fun h => Option.noConfusion h⟩

/-! ## The pending-callback queue -/

theorem runCbOps_cons (st : CbState) (op : CbOp) (ops : List CbOp) :
    runCbOps st (op :: ops) = runCbOps (applyCbOp st op) ops := rfl

theorem runCbOps_append (st : CbState) (a b : List CbOp) :
    runCbOps st (a ++ b) = runCbOps (runCbOps st a) b :=
  List.foldl_append ..

/-- Registering while not Ready only queues, in order. -/
theorem runCbOps_regs_not_ready (pre : List Nat) (st : CbState) (h : st.ready = false) :
    runCbOps st (pre.map .reg) = { st with queue := st.queue ++ pre } := by
  induction pre generalizing st with
  | nil =>
    cases st
    simp [runCbOps]
  | cons cb pre ih =>
    rw [List.map_cons, runCbOps_cons]
    have happ : applyCbOp st (.reg cb) = { st with queue := st.queue ++ [cb] } := by
      simp [applyCbOp, waitForData, h]
    rw [happ, ih { st with queue := st.queue ++ [cb] } h]
    cases st
    simp

/-- Registering while Ready invokes immediately, in order. -/
theorem runCbOps_regs_ready (post : List Nat) (st : CbState) (h : st.ready = true) :
    runCbOps st (post.map .reg) = { st with log := st.log ++ post } := by
  induction post generalizing st with
  | nil =>
    cases st
    simp [runCbOps]
  | cons cb post ih =>
    rw [List.map_cons, runCbOps_cons]
    have happ : applyCbOp st (.reg cb) = { st with log := st.log ++ [cb] } := by
      simp [applyCbOp, waitForData, h]
    rw [happ, ih { st with log := st.log ++ [cb] } h]
    cases st
    simp

/-- C9: every callback registered before Ready is queued (none runs early)
and is invoked exactly once when Ready is reached, in registration order,
after which the queue is empty; callbacks registered after Ready run
immediately; the final invocation log is exactly one entry per registration,
so nothing is dropped or run twice. -/
theorem C9_callback_queue (pre post : List Nat) :
    ((runCbOps cbInit (pre.map .reg)).log = [])
    ∧ ((runCbOps cbInit (pre.map .reg)).queue = pre)
    ∧ ((runCbOps cbInit (pre.map .reg ++ .ready :: post.map .reg)).log = pre ++ post)
    ∧ ((runCbOps cbInit (pre.map .reg ++ .ready :: post.map .reg)).queue = []) := by
  have h1 := runCbOps_regs_not_ready pre cbInit rfl
  have h2 : runCbOps cbInit (pre.map .reg ++ .ready :: post.map .reg) =
      ({ ready := true, queue := [], log := pre ++ post } : CbState) := by
    rw [runCbOps_append, h1, runCbOps_cons]
    have happ : applyCbOp { cbInit with queue := cbInit.queue ++ pre } CbOp.ready =
        ({ ready := true, queue := [], log := pre } : CbState) := by
      simp [applyCbOp, triggerDataLoadedCallbacks, cbInit]
    rw [happ, runCbOps_regs_ready post _ rfl]
  rw [h1, h2]
  exact ⟨rfl, rfl, rfl, rfl⟩

end QApp
